import Mathlib

/-!
Verification of the statistics aggregation engine of the Lefties vs Righties
application (two variants of the app: the top-level app.py and Logo/app.py).
Python strings are modelled as Lean String, numeric spreadsheet cells as
rationals, missing values (NaN/None) as Option, and unparsable text cells by an
explicit constructor.  Dictionaries with insertion order are modelled as
association lists grown at the tail.  Points cells are modelled at two levels:
PCell covers tables whose point columns are free of float NaN, and the full
model NCell adds the NaN an empty cell yields — on that model the points sums
are NaN-able (Option ℚ, none for NaN) and the aggregation is Option-valued,
none modelling the ValueError that int(round(nan)) raises inside _pct.
-/

/-! ## String helpers (Python str.strip / str.split) -/

/-- Python str.strip(): drop whitespace from both ends. -/
def pyStrip (s : String) : String :=
  ⟨((s.data.dropWhile Char.isWhitespace).reverse.dropWhile Char.isWhitespace).reverse⟩

/-- Helper for pySplit: walk the characters, cur holds the current token reversed. -/
def splitWsAux : List Char → List Char → List String
  | [], cur => if cur = [] then [] else [⟨cur.reverse⟩]
  | c :: cs, cur =>
    if c.isWhitespace then
      (if cur = [] then splitWsAux cs [] else ⟨cur.reverse⟩ :: splitWsAux cs [])
    else splitWsAux cs (c :: cur)

/-- Python str.split() with no argument: split on whitespace runs, no empty tokens. -/
def pySplit (s : String) : List String :=
  splitWsAux s.data []

/-- app.py clean_name helper: None for NA/blank cells, else the stripped string. -/
def clean_name : Option String → Option String
  | none => none
  | some s =>
    let t := pyStrip s
    if t = "" then none else some t

/-- app.py to_firstname_first: turns a stored "Surname Given" into "Given Surname";
names with fewer than two tokens pass through unchanged. -/
def to_firstname_first (name : String) : String :=
  match pySplit name with
  | [] => name
  | [_] => name
  | f :: g :: rest =>
    let parts := f :: g :: rest
    let first := parts.getLastD ""
    let last := String.intercalate (" ") parts.dropLast
    first ++ " " ++ last

/-- Logo/app.py short_name_msurname: "Meno Priezvisko" becomes "M. Priezvisko". -/
def short_name_msurname (full_name : String) : String :=
  match pySplit full_name with
  | [] => ""
  | f :: rest =>
    let last := (f :: rest).getLastD f
    let initial := if f = "" then "" else (⟨f.data.take 1⟩ : String) ++ "."
    pyStrip (initial ++ " " ++ last)

/-! ## Point cells and rows -/

/-- A LeftPoints/RightPoints spreadsheet cell of a table whose point columns
carry no float NaN: either the column/value is absent (row.get default), a
parsed number, or a non-empty text value that float() cannot parse.  The float
NaN of an empty cell — on which float() succeeds, so the try/except does not
fire and the NaN reaches _pct — is covered by the full cell model NCell
below. -/
inductive PCell
  | missing
  | num (q : ℚ)
  | bad
deriving DecidableEq

/-- compute_stats_for_filtered's point coercion: float(x) if x is not None else 0.0,
with any parse failure caught and coerced to 0.0. -/
def parsePts : PCell → ℚ
  | .missing => 0
  | .num q => q
  | .bad => 0

/-- One row of the Matches table (columns Rok, Formát, L1, L2, R1, R2, Lbody, Rbody).
Name cells are None for NaN. -/
structure Row where
  rok : Int
  format : String
  l1 : Option String
  l2 : Option String
  r1 : Option String
  r2 : Option String
  lbody : PCell
  rbody : PCell
deriving DecidableEq

/-! ## Association-list state (Python dict with insertion order) -/

/-- Lookup in an association list (Python dict read). -/
def lookupA {β : Type} : List (String × β) → String → Option β
  | [], _ => none
  | (q, b) :: rest, p => if q = p then some b else lookupA rest p

/-- Update the entry for a key in place, or append a fresh entry at the end:
Python defaultdict access followed by mutation, preserving insertion order. -/
def updateA {β : Type} (init : β) : List (String × β) → String → (β → β) → List (String × β)
  | [], p, f => [(p, f init)]
  | (q, b) :: rest, p, f =>
    if q = p then (q, f b) :: rest else (q, b) :: updateA init rest p f

/-! ## The stats accumulator -/

/-- The per-player accumulator bucket of compute_stats_for_filtered. -/
structure Bucket where
  team : String
  fsPts : ℚ
  fsCnt : Nat
  fbPts : ℚ
  fbCnt : Nat
  siPts : ℚ
  siCnt : Nat
deriving DecidableEq

def emptyBucket : Bucket := ⟨"", 0, 0, 0, 0, 0, 0⟩

/-- Points accumulated in the bucket for a given format key. -/
def bucketPts (b : Bucket) (fmt : String) : ℚ :=
  if fmt = "Foursome" then b.fsPts
  else if fmt = "Fourball" then b.fbPts
  else if fmt = "Single" then b.siPts
  else 0

/-- Match count accumulated in the bucket for a given format key. -/
def bucketCnt (b : Bucket) (fmt : String) : Nat :=
  if fmt = "Foursome" then b.fsCnt
  else if fmt = "Fourball" then b.fbCnt
  else if fmt = "Single" then b.siCnt
  else 0

/-- One crediting step of the inner loops: b["Team"] = p_team;
b[fmt]["pts"] += pts; b[fmt]["cnt"] += 1. -/
def creditBucket (b : Bucket) (pTeam fmt : String) (pts : ℚ) : Bucket :=
  let b := { b with team := pTeam }
  if fmt = "Foursome" then { b with fsPts := b.fsPts + pts, fsCnt := b.fsCnt + 1 }
  else if fmt = "Fourball" then { b with fbPts := b.fbPts + pts, fbCnt := b.fbCnt + 1 }
  else if fmt = "Single" then { b with siPts := b.siPts + pts, siCnt := b.siCnt + 1 }
  else b

/-- The cleaned names of one side of a row, slot 1 before slot 2. -/
def sideNames (c1 c2 : Option String) : List String :=
  [c1, c2].filterMap clean_name

/-- One side's crediting loop of compute_stats_for_filtered: for each listed player,
team lookup with the side's default, team-filter check, then bucket credit. -/
def creditSide (defTeam : String) (teamMap : List (String × String)) (selTeams : List String)
    (fmt : String) (pts : ℚ) (st : List (String × Bucket)) (names : List String) :
    List (String × Bucket) :=
  names.foldl
    (fun st p =>
      let pTeam := (lookupA teamMap p).getD defTeam
      if selTeams ≠ [] ∧ pTeam ∉ selTeams then st
      else updateA emptyBucket st p (fun b => creditBucket b pTeam fmt pts))
    st

def FMT_KEYS : List String := ["Foursome", "Fourball", "Single"]

/-- Processing of one filtered row by compute_stats_for_filtered. -/
def rowStep (teamMap : List (String × String)) (selTeams : List String)
    (st : List (String × Bucket)) (r : Row) : List (String × Bucket) :=
  let fmt := pyStrip r.format
  if fmt ∈ FMT_KEYS then
    let lns := sideNames r.l1 r.l2
    let rns := sideNames r.r1 r.r2
    let lb := parsePts r.lbody
    let rb := parsePts r.rbody
    let st1 := creditSide ("Lefties") teamMap selTeams fmt lb st lns
    creditSide ("Righties") teamMap selTeams fmt rb st1 rns
  else st

/-- The year predicate of the filter: `if sel_years: df_y = df_y[isin]`.
none is the sentinel (no year restriction); an empty list is falsy in Python, so
it also skips the filter. -/
def yearPass (selYears : Option (List Int)) (r : Row) : Bool :=
  match selYears with
  | none => true
  | some [] => true
  | some (y :: ys) => decide (r.rok ∈ y :: ys)

/-- The format predicate of the filter (raw column value, not stripped). -/
def fmtPass (selFormats : Option (List String)) (r : Row) : Bool :=
  match selFormats with
  | none => true
  | some [] => true
  | some (f :: fs) => decide (r.format ∈ f :: fs)

/-- The filtered row view df_y. -/
def filterRows (selYears : Option (List Int)) (selFormats : Option (List String))
    (rows : List Row) : List Row :=
  (rows.filter (yearPass selYears)).filter (fmtPass selFormats)

/-- The stats dict after the main loop of compute_stats_for_filtered. -/
def statsState (rows : List Row) (selYears : Option (List Int))
    (selFormats : Option (List String)) (selTeams : List String)
    (teamMap : List (String × String)) : List (String × Bucket) :=
  (filterRows selYears selFormats rows).foldl (rowStep teamMap selTeams) []

/-! ## Rounding and percentages -/

/-- Python round() on a rational: round half to even. -/
def pyRound (q : ℚ) : Int :=
  if q - ⌊q⌋ < 1/2 then ⌊q⌋
  else if q - ⌊q⌋ > 1/2 then ⌊q⌋ + 1
  else if ⌊q⌋ % 2 = 0 then ⌊q⌋ else ⌊q⌋ + 1

/-- The _pct helper: int(round((points_sum / cnt) * 100)) if cnt else 0. -/
def pct (points_sum : ℚ) (cnt : Nat) : Int :=
  if cnt ≠ 0 then pyRound (points_sum / cnt * 100) else 0

/-! ## Output rows (the rows_num list of compute_stats_for_filtered) -/

/-- One numeric aggregate output row of compute_stats_for_filtered. -/
structure OutRow where
  hrac : String
  team : String
  fsPts : ℚ
  fsCnt : Nat
  fsPct : Int
  fbPts : ℚ
  fbCnt : Nat
  fbPct : Int
  siPts : ℚ
  siCnt : Nat
  siPct : Int
  totPts : ℚ
  totCnt : Nat
  totPct : Int
deriving DecidableEq

/-- Construction of one rows_num entry from a player's bucket. -/
def mkOutRow (teamMap : List (String × String)) (p : String) (b : Bucket) : OutRow :=
  let team := if b.team = "" then (lookupA teamMap p).getD ("Lefties") else b.team
  let totPts := b.fsPts + b.fbPts + b.siPts
  let totCnt := b.fsCnt + b.fbCnt + b.siCnt
  { hrac := to_firstname_first p
    team := team
    fsPts := b.fsPts, fsCnt := b.fsCnt, fsPct := pct b.fsPts b.fsCnt
    fbPts := b.fbPts, fbCnt := b.fbCnt, fbPct := pct b.fbPts b.fbCnt
    siPts := b.siPts, siCnt := b.siCnt, siPct := pct b.siPts b.siCnt
    totPts := totPts, totCnt := totCnt, totPct := pct totPts totCnt }

/-- Shared body of both variants: filter, fold, then emit rows in dict order. -/
def compute_stats_core (rows : List Row) (selYears : Option (List Int))
    (selFormats : Option (List String)) (selTeams : List String)
    (teamMap : List (String × String)) : List OutRow :=
  (statsState rows selYears selFormats selTeams teamMap).map
    (fun pb => mkOutRow teamMap pb.1 pb.2)

/-- compute_stats_for_filtered of the top-level app.py (v1.0.2): only the
empty-formats guard; there is no guard for an explicitly empty years selection. -/
def compute_stats_for_filtered (rows : List Row) (selYears : Option (List Int))
    (selFormats : Option (List String)) (selTeams : List String)
    (teamMap : List (String × String)) : List OutRow :=
  if selFormats = some [] then []
  else compute_stats_core rows selYears selFormats selTeams teamMap

/-- compute_stats_for_filtered of Logo/app.py (v1.2.12): the empty-formats guard
followed by the empty-years guard. -/
def compute_stats_for_filtered_logo (rows : List Row) (selYears : Option (List Int))
    (selFormats : Option (List String)) (selTeams : List String)
    (teamMap : List (String × String)) : List OutRow :=
  if selFormats = some [] then []
  else if selYears = some [] then []
  else compute_stats_core rows selYears selFormats selTeams teamMap

/-! ## Team classifier (build_player_team_map) -/

/-- Increment a name's counter in a count dict: cnt[nm] = cnt.get(nm, 0) + 1
(insertion order preserved). -/
def bumpCount (d : List (String × Nat)) (p : String) : List (String × Nat) :=
  updateA 0 d p (fun n => n + 1)

/-- Build the occurrence-count dict from a column-major list of name cells
(dropna + strip + skip empty, as in build_player_team_map). -/
def cntDict (cells : List (Option String)) : List (String × Nat) :=
  cells.foldl
    (fun d c =>
      match clean_name c with
      | some nm => bumpCount d nm
      | none => d)
    []

/-- The left-appearance counts: column L1 over all rows, then column L2. -/
def cntLDict (rows : List Row) : List (String × Nat) :=
  cntDict (rows.map (·.l1) ++ rows.map (·.l2))

/-- The right-appearance counts: column R1 over all rows, then column R2. -/
def cntRDict (rows : List Row) : List (String × Nat) :=
  cntDict (rows.map (·.r1) ++ rows.map (·.r2))

/-- The team decision of build_player_team_map from the two counts. -/
def teamFor (l r : Nat) : String :=
  if l > r then "Lefties"
  else if r > l then "Righties"
  else if l > 0 then "Lefties"
  else if r > 0 then "Righties"
  else "Lefties"

/-- build_player_team_map: the name-to-team mapping over the union of the
players seen in left and right slots. -/
def build_player_team_map (rows : List Row) : List (String × String) :=
  let dL := cntLDict rows
  let dR := cntRDict rows
  let players := dL.map (·.1) ++ (dR.map (·.1)).filter (fun p => p ∉ dL.map (·.1))
  players.map (fun p => (p, teamFor ((lookupA dL p).getD 0) ((lookupA dR p).getD 0)))

/-- Direct count of a player's left-slot appearances (specification-side view of
the counting loop; proven equal to the dict the code builds). -/
def cntL (rows : List Row) (p : String) : Nat :=
  ((rows.map (·.l1) ++ rows.map (·.l2)).filter (fun c => clean_name c = some p)).length

/-- Direct count of a player's right-slot appearances. -/
def cntR (rows : List Row) (p : String) : Nat :=
  ((rows.map (·.r1) ++ rows.map (·.r2)).filter (fun c => clean_name c = some p)).length

/-! ## Code-point string comparison (Python str ordering) -/

/-- Strict lexicographic comparison of character lists by code point, the order
Python uses to compare strings. -/
def charListLt : List Char → List Char → Bool
  | [], [] => false
  | [], _ :: _ => true
  | _ :: _, [] => false
  | c :: cs, d :: ds => if c < d then true else if d < c then false else charListLt cs ds

/-- Python str strict less-than. -/
def pyStrLt (a b : String) : Bool := charListLt a.data b.data

/-! ## Opponent aggregator (Detail hráča tab) -/

/-- str(cell).strip() on a name cell: NaN prints as "nan". -/
def cellStr : Option String → String
  | none => "nan"
  | some s => pyStrip s

/-- float(row.get(col, 0) or 0.0): a missing or falsy value gives 0.0, a number
gives itself, a non-empty unparsable string raises (none). -/
def floatOr : PCell → Option ℚ
  | .missing => some 0
  | .num q => some q
  | .bad => none

/-- The _points_for_row helper of the player-detail tab (total: its try/except
returns 0.0 on any parse failure). -/
def pointsForRow (r : Row) (sel team : String) : ℚ :=
  match floatOr r.lbody, floatOr r.rbody with
  | some lb, some rb =>
    let isL := cellStr r.l1 = sel ∨ cellStr r.l2 = sel
    let isR := cellStr r.r1 = sel ∨ cellStr r.r2 = sel
    if isL ∧ ¬isR then lb
    else if isR ∧ ¬isL then rb
    else if team = "Lefties" then lb else rb
  | _, _ => 0

/-- Per-opponent accumulator of the opponents table. -/
structure OppBucket where
  wins : Nat
  draws : Nat
  losses : Nat
  pts : ℚ
  cnt : Nat
deriving DecidableEq

def emptyOppBucket : OppBucket := ⟨0, 0, 0, 0, 0⟩

/-- Outcome classification from the selected player's perspective. -/
inductive MatchRes
  | win
  | draw
  | loss
deriving DecidableEq

/-- Credit one opponent bucket with a result and the player's points. -/
def creditOpp (res : MatchRes) (myPts : ℚ) (b : OppBucket) : OppBucket :=
  let b :=
    match res with
    | .win => { b with wins := b.wins + 1 }
    | .loss => { b with losses := b.losses + 1 }
    | .draw => { b with draws := b.draws + 1 }
  { b with pts := b.pts + myPts, cnt := b.cnt + 1 }

/-- Processing of one of the player's rows by the opponent loop.  none models an
uncaught float() exception on an unparsable points cell. -/
def oppRowStep (sel team : String) (st : List (String × OppBucket)) (r : Row) :
    Option (List (String × OppBucket)) :=
  let isL := cellStr r.l1 = sel ∨ cellStr r.l2 = sel
  let isR := cellStr r.r1 = sel ∨ cellStr r.r2 = sel
  match floatOr r.lbody, floatOr r.rbody with
  | some lb, some rb =>
    let myPts :=
      if isL ∧ ¬isR then lb
      else if isR ∧ ¬isL then rb
      else pointsForRow r sel team
    let oppPts :=
      if isL ∧ ¬isR then rb
      else if isR ∧ ¬isL then lb
      else if team = "Lefties" then rb else lb
    let opponents :=
      if isL ∧ ¬isR then [r.r1, r.r2]
      else if isR ∧ ¬isL then [r.l1, r.l2]
      else if team = "Lefties" then [r.r1, r.r2] else [r.l1, r.l2]
    let res : MatchRes :=
      if myPts > oppPts then .win else if myPts < oppPts then .loss else .draw
    some (opponents.foldl
      (fun st nm =>
        match nm with
        | none => st
        | some raw =>
          let oppName := pyStrip raw
          if oppName = "" then st
          else updateA emptyOppBucket st oppName (creditOpp res myPts))
      st)
  | _, _ => none

/-- The whole opponent accumulation over the player's filtered rows. -/
def oppAgg (sel team : String) (rows : List Row) : Option (List (String × OppBucket)) :=
  rows.foldlM (oppRowStep sel team) []

/-- One row of the opponents table before sorting. -/
structure OppRow where
  name : String
  wins : Nat
  draws : Nat
  losses : Nat
  pts : ℚ
  cnt : Nat
  succ : Int
deriving DecidableEq

/-- Emit the unsorted opponents table rows in dict order. -/
def mkOppRow (p : String) (b : OppBucket) : OppRow :=
  { name := to_firstname_first p
    wins := b.wins, draws := b.draws, losses := b.losses
    pts := b.pts, cnt := b.cnt, succ := pct b.pts b.cnt }

/-- The three-key sort order of the opponents table: success percentage
descending, points descending, opponent display name ascending. -/
def oppLe (a b : OppRow) : Prop :=
  a.succ > b.succ ∨
    (a.succ = b.succ ∧
      (a.pts > b.pts ∨ (a.pts = b.pts ∧ (a.name = b.name ∨ pyStrLt a.name b.name = true))))

instance : DecidableRel oppLe := fun a b => by
  unfold oppLe; infer_instance

/-- The strict version of the opponents ordering. -/
def oppLt (a b : OppRow) : Prop :=
  a.succ > b.succ ∨
    (a.succ = b.succ ∧ (a.pts > b.pts ∨ (a.pts = b.pts ∧ pyStrLt a.name b.name = true)))

instance : DecidableRel oppLt := fun a b => by
  unfold oppLt; infer_instance

/-- The sorted opponents table (df_opp.sort_values with a stable multi-key sort). -/
def opponents_table (sel team : String) (rows : List Row) : Option (List OppRow) :=
  (oppAgg sel team rows).map
    (fun st => (st.map (fun pb => mkOppRow pb.1 pb.2)).insertionSort oppLe)

/-! ## Alphabetic sort of the statistics table and collation -/

/-- Lowercasing stand-in for Python str.casefold on the ASCII names involved. -/
def asciiCasefold (s : String) : String :=
  String.map Char.toLower s

/-- The sk_xfrm sort-key transform: locale.strxfrm when a Slovak/Czech locale
was successfully set (the platform-dependent transform is a parameter), else
the casefold fallback. -/
def sk_xfrm (xfrmOracle : String → String) (localeOk : Bool) (s : String) : String :=
  if localeOk then xfrmOracle s else asciiCasefold s

/-- The surname helper of the ABC sort: last whitespace token of the display name. -/
def surnameOf (full_name : String) : String :=
  (pySplit (pyStrip full_name)).getLastD ""

/-- The two-key ABC ordering on display names: transformed surname, then the
transformed full name. -/
def abcLe (xf : String → String) (x y : String) : Prop :=
  pyStrLt (xf (surnameOf x)) (xf (surnameOf y)) = true ∨
    (xf (surnameOf x) = xf (surnameOf y) ∧
      (xf x = xf y ∨ pyStrLt (xf x) (xf y) = true))

instance (xf : String → String) : DecidableRel (abcLe xf) := fun x y => by
  unfold abcLe; infer_instance

/-- The ABC sort of the statistics table applied to the display names
(df_disp.sort_values by transformed surname then transformed full name, stable). -/
def abc_sorted_names (xfrmOracle : String → String) (localeOk : Bool)
    (names : List String) : List String :=
  names.insertionSort (abcLe (sk_xfrm xfrmOracle localeOk))

/-- Modelled from the spec: the target language's collation unit sequence of a
lowercase word, in which the digraph "ch" is a single collation unit.  Each unit
is ranked by doubling the code point, with "ch" placed strictly between "h" and
"i".  This definition follows the spec's words (an explicit collation table with
"ch" between "h" and "i"); it exists only to be compared with the code. -/
def specCollUnits : List Char → List Nat
  | [] => []
  | 'c' :: 'h' :: rest => (2 * Char.toNat 'h' + 1) :: specCollUnits rest
  | c :: rest => 2 * Char.toNat c :: specCollUnits rest

/-- Modelled from the spec: strict collation order on lowercase words with "ch"
as a single unit between "h" and "i". -/
def specCollLt (a b : String) : Prop :=
  List.Lex (fun m n => m < n) (specCollUnits a.data) (specCollUnits b.data)

instance : DecidableRel specCollLt := fun a b => by
  unfold specCollLt; infer_instance

/-! ## Derived views used by the statements -/

/-- The number of cleaned left-slot occurrences of a player in one row. -/
def lCnt (r : Row) (p : String) : Nat :=
  (sideNames r.l1 r.l2).count p

/-- The number of cleaned right-slot occurrences of a player in one row. -/
def rCnt (r : Row) (p : String) : Nat :=
  (sideNames r.r1 r.r2).count p

/-- The stripped format key of a row. -/
def rowFmt (r : Row) : String := pyStrip r.format

/-- A row's point contribution to a player's bucket for one format key. -/
def contribP (p fmt : String) (r : Row) : ℚ :=
  if rowFmt r = fmt then
    (lCnt r p : ℚ) * parsePts r.lbody + (rCnt r p : ℚ) * parsePts r.rbody
  else 0

/-- A row's match-count contribution to a player's bucket for one format key. -/
def contribC (p fmt : String) (r : Row) : Nat :=
  if rowFmt r = fmt then lCnt r p + rCnt r p else 0

/-- The number of times a row credits a player (0 when its format is not one of
the three keys). -/
def creditsOf (p : String) (r : Row) : Nat :=
  if rowFmt r ∈ FMT_KEYS then lCnt r p + rCnt r p else 0

/-- n repeated creditings of a bucket with the same team, format and points. -/
def bumpN (tp fmt : String) (q : ℚ) (n : Nat) (b : Bucket) : Bucket :=
  { team := if n = 0 then b.team else tp
    fsPts := b.fsPts + (if fmt = "Foursome" then (n : ℚ) * q else 0)
    fsCnt := b.fsCnt + (if fmt = "Foursome" then n else 0)
    fbPts := b.fbPts + (if fmt = "Fourball" then (n : ℚ) * q else 0)
    fbCnt := b.fbCnt + (if fmt = "Fourball" then n else 0)
    siPts := b.siPts + (if fmt = "Single" then (n : ℚ) * q else 0)
    siCnt := b.siCnt + (if fmt = "Single" then n else 0) }

/-- The combined effect of one row's processing on a credited player's bucket. -/
def rowBump (tp p : String) (r : Row) (b : Bucket) : Bucket :=
  if rowFmt r ∈ FMT_KEYS then
    { team := if lCnt r p + rCnt r p = 0 then b.team else tp
      fsPts := b.fsPts + contribP p ("Foursome") r
      fsCnt := b.fsCnt + contribC p ("Foursome") r
      fbPts := b.fbPts + contribP p ("Fourball") r
      fbCnt := b.fbCnt + contribC p ("Fourball") r
      siPts := b.siPts + contribP p ("Single") r
      siCnt := b.siCnt + contribC p ("Single") r }
  else b

/-- The combined effect of a list of rows on a credited player's bucket. -/
def listExt (tp p : String) (rows : List Row) (b : Bucket) : Bucket :=
  { team := if (rows.map (creditsOf p)).sum = 0 then b.team else tp
    fsPts := b.fsPts + (rows.map (contribP p ("Foursome"))).sum
    fsCnt := b.fsCnt + (rows.map (contribC p ("Foursome"))).sum
    fbPts := b.fbPts + (rows.map (contribP p ("Fourball"))).sum
    fbCnt := b.fbCnt + (rows.map (contribC p ("Fourball"))).sum
    siPts := b.siPts + (rows.map (contribP p ("Single"))).sum
    siCnt := b.siCnt + (rows.map (contribC p ("Single"))).sum }

/-- The rows_num entry that compute_stats_for_filtered generates for one
canonical player key, as an optional value (none when the player never enters
the stats dict). -/
def playerOutRow (rows : List Row) (selYears : Option (List Int))
    (selFormats : Option (List String)) (selTeams : List String)
    (teamMap : List (String × String)) (p : String) : Option OutRow :=
  (lookupA (statsState rows selYears selFormats selTeams teamMap) p).map (mkOutRow teamMap p)

/-! ## The full cell model: NaN points cells and the _pct error path -/

/-- A LeftPoints/RightPoints cell over the full value domain pandas can
supply: absent, a parsed number, the float NaN of an empty cell, or non-empty
text that float() cannot parse.  NaN is the case PCell omits: float(nan)
succeeds, so the coercion's try/except does not fire and the NaN propagates
into the points sums. -/
inductive NCell
  | missing
  | num (q : ℚ)
  | nan
  | bad
deriving DecidableEq

/-- One row of the Matches table over the full cell model. -/
structure NRow where
  rok : Int
  format : String
  l1 : Option String
  l2 : Option String
  r1 : Option String
  r2 : Option String
  lbody : NCell
  rbody : NCell
deriving DecidableEq

/-- compute_stats_for_filtered's point coercion over the full cell model:
float(x) if x is not None else 0.0, with any parse failure caught and coerced
to 0.0.  A float value is some q for an ordinary number and none for NaN; the
NaN cell parses successfully and is therefore NOT coerced — it stays NaN. -/
def parsePtsN : NCell → Option ℚ
  | .missing => some 0
  | .num q => some q
  | .nan => none
  | .bad => some 0

/-- Float addition with NaN propagation: a NaN operand makes the sum NaN. -/
def addN : Option ℚ → Option ℚ → Option ℚ
  | some a, some b => some (a + b)
  | _, _ => none

/-- The per-player accumulator bucket over NaN-able points sums. -/
structure NBucket where
  team : String
  fsPts : Option ℚ
  fsCnt : Nat
  fbPts : Option ℚ
  fbCnt : Nat
  siPts : Option ℚ
  siCnt : Nat
deriving DecidableEq

def emptyNBucket : NBucket := ⟨"", some 0, 0, some 0, 0, some 0, 0⟩

/-- One crediting step over NaN-able points: b["Team"] = p_team;
b[fmt]["pts"] += pts; b[fmt]["cnt"] += 1. -/
def creditNBucket (b : NBucket) (pTeam fmt : String) (pts : Option ℚ) : NBucket :=
  let b := { b with team := pTeam }
  if fmt = "Foursome" then { b with fsPts := addN b.fsPts pts, fsCnt := b.fsCnt + 1 }
  else if fmt = "Fourball" then { b with fbPts := addN b.fbPts pts, fbCnt := b.fbCnt + 1 }
  else if fmt = "Single" then { b with siPts := addN b.siPts pts, siCnt := b.siCnt + 1 }
  else b

/-- One side's crediting loop over the full cell model. -/
def creditSideN (defTeam : String) (teamMap : List (String × String)) (selTeams : List String)
    (fmt : String) (pts : Option ℚ) (st : List (String × NBucket)) (names : List String) :
    List (String × NBucket) :=
  names.foldl
    (fun st p =>
      let pTeam := (lookupA teamMap p).getD defTeam
      if selTeams ≠ [] ∧ pTeam ∉ selTeams then st
      else updateA emptyNBucket st p (fun b => creditNBucket b pTeam fmt pts))
    st

/-- Processing of one filtered row over the full cell model. -/
def rowStepN (teamMap : List (String × String)) (selTeams : List String)
    (st : List (String × NBucket)) (r : NRow) : List (String × NBucket) :=
  let fmt := pyStrip r.format
  if fmt ∈ FMT_KEYS then
    let lns := sideNames r.l1 r.l2
    let rns := sideNames r.r1 r.r2
    let lb := parsePtsN r.lbody
    let rb := parsePtsN r.rbody
    let st1 := creditSideN ("Lefties") teamMap selTeams fmt lb st lns
    creditSideN ("Righties") teamMap selTeams fmt rb st1 rns
  else st

/-- The year predicate over the full cell model (points cells not consulted). -/
def yearPassN (selYears : Option (List Int)) (r : NRow) : Bool :=
  match selYears with
  | none => true
  | some [] => true
  | some (y :: ys) => decide (r.rok ∈ y :: ys)

/-- The format predicate over the full cell model. -/
def fmtPassN (selFormats : Option (List String)) (r : NRow) : Bool :=
  match selFormats with
  | none => true
  | some [] => true
  | some (f :: fs) => decide (r.format ∈ f :: fs)

/-- The filtered row view over the full cell model. -/
def filterRowsN (selYears : Option (List Int)) (selFormats : Option (List String))
    (rows : List NRow) : List NRow :=
  (rows.filter (yearPassN selYears)).filter (fmtPassN selFormats)

/-- The stats dict after the main loop, over the full cell model. -/
def statsStateN (rows : List NRow) (selYears : Option (List Int))
    (selFormats : Option (List String)) (selTeams : List String)
    (teamMap : List (String × String)) : List (String × NBucket) :=
  (filterRowsN selYears selFormats rows).foldl (rowStepN teamMap selTeams) []

/-- _pct over a NaN-able points sum: int(round((points_sum / cnt) * 100)) if
cnt else 0.  round(nan) raises ValueError (cannot convert float NaN to
integer), modelled as none; when cnt is falsy the conditional short-circuits
to 0 without touching the points sum. -/
def pctN (points_sum : Option ℚ) (cnt : Nat) : Option Int :=
  if cnt ≠ 0 then
    match points_sum with
    | some p => some (pyRound (p / cnt * 100))
    | none => none
  else some 0

/-- One numeric aggregate output row over the full cell model: the points
columns hold float values (NaN-able), the percentage columns the ints _pct
returned. -/
structure OutRowN where
  hrac : String
  team : String
  fsPts : Option ℚ
  fsCnt : Nat
  fsPct : Int
  fbPts : Option ℚ
  fbCnt : Nat
  fbPct : Int
  siPts : Option ℚ
  siCnt : Nat
  siPct : Int
  totPts : Option ℚ
  totCnt : Nat
  totPct : Int
deriving DecidableEq

/-- Construction of one rows_num entry from a player's bucket: none models the
loop body raising ValueError in one of its four _pct calls. -/
def mkOutRowN (teamMap : List (String × String)) (p : String) (b : NBucket) :
    Option OutRowN :=
  let team := if b.team = "" then (lookupA teamMap p).getD ("Lefties") else b.team
  let totPts := addN (addN b.fsPts b.fbPts) b.siPts
  let totCnt := b.fsCnt + b.fbCnt + b.siCnt
  match pctN b.fsPts b.fsCnt, pctN b.fbPts b.fbCnt, pctN b.siPts b.siCnt,
      pctN totPts totCnt with
  | some pfs, some pfb, some psi, some ptot =>
    some
      { hrac := to_firstname_first p
        team := team
        fsPts := b.fsPts, fsCnt := b.fsCnt, fsPct := pfs
        fbPts := b.fbPts, fbCnt := b.fbCnt, fbPct := pfb
        siPts := b.siPts, siCnt := b.siCnt, siPct := psi
        totPts := totPts, totCnt := totCnt, totPct := ptot }
  | _, _, _, _ => none

/-- The output loop over the stats dict in insertion order: the first player
whose row construction raises aborts the whole call (the exception propagates
out of compute_stats_for_filtered). -/
def buildRowsN (teamMap : List (String × String)) :
    List (String × NBucket) → Option (List OutRowN)
  | [] => some []
  | pb :: rest =>
    match mkOutRowN teamMap pb.1 pb.2 with
    | none => none
    | some row => (buildRowsN teamMap rest).map (fun l => row :: l)

/-- Shared body of both variants over the full cell model: none models the
call raising ValueError instead of returning. -/
def compute_stats_coreN (rows : List NRow) (selYears : Option (List Int))
    (selFormats : Option (List String)) (selTeams : List String)
    (teamMap : List (String × String)) : Option (List OutRowN) :=
  buildRowsN teamMap (statsStateN rows selYears selFormats selTeams teamMap)

/-- compute_stats_for_filtered of the top-level app.py over the full cell
model: some is a normal return, none a raised ValueError. -/
def compute_stats_for_filteredN (rows : List NRow) (selYears : Option (List Int))
    (selFormats : Option (List String)) (selTeams : List String)
    (teamMap : List (String × String)) : Option (List OutRowN) :=
  if selFormats = some [] then some []
  else compute_stats_coreN rows selYears selFormats selTeams teamMap

/-- Replace an unparsable text points cell by the numeric 0 it is coerced to.
The NaN cell is not replaced: float() parses it successfully. -/
def sanitizeCellN : NCell → NCell
  | .bad => .num 0
  | c => c

/-- A row with its unparsable text points cells replaced by numeric 0. -/
def sanitizeRowN (r : NRow) : NRow :=
  { r with lbody := sanitizeCellN r.lbody, rbody := sanitizeCellN r.rbody }

/-! ## Concrete inputs used by the witnesses and counterexamples -/

/-- Row constructor for concrete match rows with numeric point cells. -/
def mkMatch (y : Int) (f : String) (a b c d : Option String) (lp rp : ℚ) : Row :=
  ⟨y, f, a, b, c, d, .num lp, .num rp⟩

/-- The spec's concrete three-match scenario (§8). -/
def scenarioMatches : List Row :=
  [mkMatch 2024 ("Single") (some ("Adam Nowak")) none (some ("Boris Varga")) none 1 0,
   mkMatch 2024 ("Single") (some ("Adam Nowak")) none (some ("Cyril Horak")) none 0 1,
   mkMatch 2024 ("Foursome") (some ("Adam Nowak")) (some ("Boris Varga"))
     (some ("Cyril Horak")) (some ("Boris Varga")) (1/2) (1/2)]

/-- A single Single-format match row naming one player on each side. -/
def oneMatch : Row :=
  mkMatch 2024 ("Single") (some ("A")) none (some ("B")) none 1 0

/-- Player X on the left of one Single row. -/
def xLeftRow : Row := mkMatch 2024 ("Single") (some ("X")) none none none 1 0

/-- Player X on the right of another Single row. -/
def xRightRow : Row := mkMatch 2024 ("Single") none none (some ("X")) none 0 1

/-- Four rows of player P against the opponents "a b" and "a  b" (the latter
with a doubled interior space), engineering two distinct output rows whose
success, points and display name all tie. -/
def oppTieRows : List Row :=
  [mkMatch 2024 ("Single") (some ("P")) none (some ("a b")) none 1 0,
   mkMatch 2024 ("Single") (some ("P")) none (some ("a b")) none 0 1,
   mkMatch 2024 ("Foursome") (some ("P")) none (some ("a  b")) none (1/2) (1/2),
   mkMatch 2024 ("Foursome") (some ("P")) none (some ("a  b")) none (1/2) (1/2)]

/-- A Single row whose LeftPoints cell is the float NaN of an empty cell. -/
def nanPointsRow : NRow :=
  ⟨2024, "Single", some ("A"), none, some ("B"), none, .nan, .num 0⟩

/-- The same row with the LeftPoints cell holding unparsable text instead. -/
def badTextRow : NRow :=
  ⟨2024, "Single", some ("A"), none, some ("B"), none, .bad, .num 0⟩

/-! ## Helper lemmas: association lists -/

theorem lookupA_updateA {β : Type} (init : β) (st : List (String × β)) (k p : String)
    (f : β → β) :
    lookupA (updateA init st k f) p =
      if k = p then some (f ((lookupA st p).getD init)) else lookupA st p := by
  induction st with
  | nil =>
    by_cases h : k = p <;> simp [updateA, lookupA, h]
  | cons qb rest ih =>
    obtain ⟨q, b⟩ := qb
    by_cases hq : q = k
    · subst hq
      by_cases hp : q = p
      · subst hp
        simp [updateA, lookupA]
      · simp [updateA, lookupA, hp]
    · by_cases hp : q = p
      · subst hp
        have hk : ¬k = q := fun h => hq h.symm
        simp [updateA, lookupA, hq, hk]
      · simp [updateA, lookupA, hq, hp, ih]

theorem lookupA_map_self {β : Type} (f : String → β) (l : List String) (p : String) :
    lookupA (l.map (fun q => (q, f q))) p = if p ∈ l then some (f p) else none := by
  induction l with
  | nil => simp [lookupA]
  | cons q rest ih =>
    by_cases h : q = p
    · subst h
      simp [lookupA]
    · have h' : ¬p = q := fun hh => h hh.symm
      simp [lookupA, h, h', ih]

theorem lookupA_isSome_iff_mem_keys {β : Type} (d : List (String × β)) (p : String) :
    (lookupA d p).isSome = true ↔ p ∈ d.map (·.1) := by
  induction d with
  | nil => simp [lookupA]
  | cons qb rest ih =>
    obtain ⟨q, b⟩ := qb
    by_cases h : q = p
    · subst h
      simp [lookupA]
    · have h' : ¬p = q := fun hh => h hh.symm
      simp [lookupA, h, h', ih]

/-! ## Helper lemmas: the count dicts of build_player_team_map -/

theorem lookupA_cntDict_foldl (p : String) (cells : List (Option String)) :
    ∀ d : List (String × Nat),
      ((lookupA ((cells.foldl
          (fun d c =>
            match clean_name c with
            | some nm => bumpCount d nm
            | none => d) d)) p).getD 0) =
        (lookupA d p).getD 0 + (cells.filter (fun c => clean_name c = some p)).length := by
  induction cells with
  | nil => intro d; simp
  | cons c cs ih =>
    intro d
    cases hc : clean_name c with
    | none =>
      simp only [List.foldl_cons, hc]
      rw [ih d]
      simp [List.filter_cons, hc]
    | some nm =>
      simp only [List.foldl_cons, hc]
      rw [ih (bumpCount d nm)]
      by_cases hnm : nm = p
      · subst hnm
        simp [List.filter_cons, hc, bumpCount, lookupA_updateA]
        omega
      · have : ¬(clean_name c = some p) := by
          rw [hc]; exact fun h => hnm (Option.some.inj h)
        simp [List.filter_cons, hc, this, bumpCount, lookupA_updateA, hnm]

theorem lookupA_cntDict (p : String) (cells : List (Option String)) :
    (lookupA (cntDict cells) p).getD 0 =
      (cells.filter (fun c => clean_name c = some p)).length := by
  have := lookupA_cntDict_foldl p cells []
  simpa [cntDict, lookupA] using this

theorem mem_keys_cntDict_foldl (p : String) (cells : List (Option String)) :
    ∀ d : List (String × Nat),
      (p ∈ ((cells.foldl
          (fun d c =>
            match clean_name c with
            | some nm => bumpCount d nm
            | none => d) d)).map (·.1)) ↔
        (p ∈ d.map (·.1) ∨ 0 < (cells.filter (fun c => clean_name c = some p)).length) := by
  induction cells with
  | nil => intro d; simp
  | cons c cs ih =>
    intro d
    cases hc : clean_name c with
    | none =>
      simp only [List.foldl_cons, hc]
      rw [ih d]
      simp [List.filter_cons, hc]
    | some nm =>
      simp only [List.foldl_cons, hc]
      rw [ih (bumpCount d nm)]
      have hkeys : p ∈ (bumpCount d nm).map (·.1) ↔ (nm = p ∨ p ∈ d.map (·.1)) := by
        rw [← lookupA_isSome_iff_mem_keys, ← lookupA_isSome_iff_mem_keys]
        by_cases hnm : nm = p <;> simp [bumpCount, lookupA_updateA, hnm]
      by_cases hnm : nm = p
      · subst hnm
        simp [List.filter_cons, hc, hkeys]
      · have : ¬(clean_name c = some p) := by
          rw [hc]; exact fun h => hnm (Option.some.inj h)
        simp [List.filter_cons, hc, this, hkeys, hnm]

theorem mem_keys_cntDict (p : String) (cells : List (Option String)) :
    p ∈ (cntDict cells).map (·.1) ↔
      0 < (cells.filter (fun c => clean_name c = some p)).length := by
  have := mem_keys_cntDict_foldl p cells []
  simpa [cntDict] using this

/-! ## Helper lemmas: bucket crediting algebra -/

theorem bumpN_zero (tp fmt : String) (q : ℚ) (b : Bucket) : bumpN tp fmt q 0 b = b := by
  cases b; simp [bumpN]

theorem creditBucket_eq_bumpN_one (tp fmt : String) (q : ℚ) (b : Bucket) :
    creditBucket b tp fmt q = bumpN tp fmt q 1 b := by
  cases b
  by_cases h1 : fmt = "Foursome"
  · simp [creditBucket, bumpN, h1]
  · by_cases h2 : fmt = "Fourball"
    · simp [creditBucket, bumpN, h1, h2]
    · by_cases h3 : fmt = "Single"
      · simp [creditBucket, bumpN, h1, h2, h3]
      · simp [creditBucket, bumpN, h1, h2, h3]

theorem bumpN_add (tp fmt : String) (q : ℚ) (n m : Nat) (b : Bucket) :
    bumpN tp fmt q m (bumpN tp fmt q n b) = bumpN tp fmt q (n + m) b := by
  cases b
  simp only [bumpN, Bucket.mk.injEq]
  refine ⟨?_, ?_, ?_, ?_, ?_, ?_, ?_⟩
  · split_ifs <;> first | rfl | omega
  · split_ifs <;> push_cast <;> ring
  · split_ifs <;> omega
  · split_ifs <;> push_cast <;> ring
  · split_ifs <;> omega
  · split_ifs <;> push_cast <;> ring
  · split_ifs <;> omega

theorem creditBucket_bumpN (tp fmt : String) (q : ℚ) (n : Nat) (b : Bucket) :
    creditBucket (bumpN tp fmt q n b) tp fmt q = bumpN tp fmt q (n + 1) b := by
  rw [creditBucket_eq_bumpN_one, bumpN_add]

/-! ## Helper lemmas: per-side and per-row bucket characterization -/

theorem lookupA_creditSide_pass (dT : String) (tm : List (String × String))
    (selT : List String) (fmt : String) (q : ℚ) (p tp : String)
    (htm : lookupA tm p = some tp) (hpass : selT = [] ∨ tp ∈ selT)
    (names : List String) :
    ∀ st : List (String × Bucket),
      lookupA (creditSide dT tm selT fmt q st names) p =
        match lookupA st p with
        | some b => some (bumpN tp fmt q (names.count p) b)
        | none =>
          if names.count p = 0 then none
          else some (bumpN tp fmt q (names.count p) emptyBucket) := by
  induction names with
  | nil =>
    intro st
    cases h : lookupA st p <;> simp [creditSide, h, bumpN_zero]
  | cons a rest ih =>
    intro st
    have hstep : creditSide dT tm selT fmt q st (a :: rest) =
        creditSide dT tm selT fmt q
          (if selT ≠ [] ∧ (lookupA tm a).getD dT ∉ selT then st
           else updateA emptyBucket st a (fun b => creditBucket b ((lookupA tm a).getD dT) fmt q))
          rest := by
      simp [creditSide]
    by_cases hap : a = p
    · subst hap
      have hteam : (lookupA tm a).getD dT = tp := by simp [htm]
      have hcond : ¬(selT ≠ [] ∧ (lookupA tm a).getD dT ∉ selT) := by
        rw [hteam]
        rcases hpass with h | h
        · simp [h]
        · simp [h]
      rw [hstep, if_neg hcond]
      rw [ih]
      rw [lookupA_updateA]
      have hone : 1 + rest.count a = rest.count a + 1 := by omega
      cases h : lookupA st a with
      | some b =>
        simp only [h, if_pos rfl, if_true, Option.getD_some, hteam, List.count_cons_self,
          creditBucket_eq_bumpN_one, bumpN_add, hone]
      | none =>
        have : ¬(rest.count a + 1 = 0) := by omega
        simp only [h, if_pos rfl, if_true, Option.getD_none, hteam, List.count_cons_self,
          creditBucket_eq_bumpN_one, bumpN_add, hone, this, if_false]
    · have hcnt : (a :: rest).count p = rest.count p := by
        simp [List.count_cons, hap]
      rw [hstep]
      by_cases hcond : selT ≠ [] ∧ (lookupA tm a).getD dT ∉ selT
      · rw [if_pos hcond, ih, hcnt]
      · rw [if_neg hcond, ih, hcnt]
        have hne : ¬(a = p) := hap
        rw [lookupA_updateA, if_neg hne]

theorem lookupA_creditSide_nopass (dT : String) (tm : List (String × String))
    (selT : List String) (fmt : String) (q : ℚ) (p tp : String)
    (htm : lookupA tm p = some tp) (hnp : ¬(selT = [] ∨ tp ∈ selT))
    (names : List String) :
    ∀ st : List (String × Bucket),
      lookupA (creditSide dT tm selT fmt q st names) p = lookupA st p := by
  induction names with
  | nil => intro st; simp [creditSide]
  | cons a rest ih =>
    intro st
    have hstep : creditSide dT tm selT fmt q st (a :: rest) =
        creditSide dT tm selT fmt q
          (if selT ≠ [] ∧ (lookupA tm a).getD dT ∉ selT then st
           else updateA emptyBucket st a (fun b => creditBucket b ((lookupA tm a).getD dT) fmt q))
          rest := by
      simp [creditSide]
    rw [hstep]
    by_cases hap : a = p
    · subst hap
      have hteam : (lookupA tm a).getD dT = tp := by simp [htm]
      have hcond : selT ≠ [] ∧ (lookupA tm a).getD dT ∉ selT := by
        push_neg at hnp
        rw [hteam]
        exact ⟨hnp.1, hnp.2⟩
      rw [if_pos hcond, ih]
    · by_cases hcond : selT ≠ [] ∧ (lookupA tm a).getD dT ∉ selT
      · rw [if_pos hcond, ih]
      · rw [if_neg hcond, ih, lookupA_updateA, if_neg hap]

theorem bumpN_bumpN_eq_rowBump (tp p : String) (r : Row) (b : Bucket)
    (hk : rowFmt r ∈ FMT_KEYS) :
    bumpN tp (rowFmt r) (parsePts r.rbody) (rCnt r p)
        (bumpN tp (rowFmt r) (parsePts r.lbody) (lCnt r p) b) =
      rowBump tp p r b := by
  have hk' : rowFmt r = "Foursome" ∨ rowFmt r = "Fourball" ∨ rowFmt r = "Single" := by
    simpa [FMT_KEYS] using hk
  rcases hk' with hf | hf | hf <;>
    (cases b
     simp [bumpN, rowBump, contribP, contribC, hf, FMT_KEYS]
     refine ⟨?_, ?_, ?_⟩ <;>
       first
         | omega
         | (split_ifs <;> first | rfl | omega)
         | ring1)

theorem rowBump_of_credits_zero (tp p : String) (r : Row) (b : Bucket)
    (hz : creditsOf p r = 0) :
    rowBump tp p r b = b := by
  by_cases hk : rowFmt r ∈ FMT_KEYS
  · have hl : lCnt r p = 0 := by simp only [creditsOf, if_pos hk] at hz; omega
    have hr : rCnt r p = 0 := by simp only [creditsOf, if_pos hk] at hz; omega
    have hP : ∀ f, contribP p f r = 0 := by
      intro f
      simp only [contribP, hl, hr]
      split_ifs <;> simp
    have hC : ∀ f, contribC p f r = 0 := by
      intro f
      simp [contribC, hl, hr]
    cases b
    simp [rowBump, if_pos hk, hP, hC, hl, hr]
  · simp [rowBump, hk]

theorem lookupA_rowStep_pass (tm : List (String × String)) (selT : List String)
    (p tp : String) (htm : lookupA tm p = some tp) (hpass : selT = [] ∨ tp ∈ selT)
    (st : List (String × Bucket)) (r : Row) :
    lookupA (rowStep tm selT st r) p =
      match lookupA st p with
      | some b => some (rowBump tp p r b)
      | none =>
        if creditsOf p r = 0 then none else some (rowBump tp p r emptyBucket) := by
  by_cases hk : pyStrip r.format ∈ FMT_KEYS
  · have hkr : rowFmt r ∈ FMT_KEYS := hk
    simp only [rowStep, if_pos hk]
    rw [lookupA_creditSide_pass ("Righties") tm selT (pyStrip r.format) (parsePts r.rbody)
        p tp htm hpass (sideNames r.r1 r.r2)]
    rw [lookupA_creditSide_pass ("Lefties") tm selT (pyStrip r.format) (parsePts r.lbody)
        p tp htm hpass (sideNames r.l1 r.l2)]
    have hcl : (sideNames r.l1 r.l2).count p = lCnt r p := rfl
    have hcr : (sideNames r.r1 r.r2).count p = rCnt r p := rfl
    have hcred : creditsOf p r = lCnt r p + rCnt r p := by
      simp [creditsOf, hkr]
    have hff : pyStrip r.format = rowFmt r := rfl
    cases h : lookupA st p with
    | some b =>
      simp only [h, hcl, hcr, hff]
      rw [bumpN_bumpN_eq_rowBump tp p r b hkr]
    | none =>
      simp only [h, hcl, hcr, hcred, hff]
      by_cases hl : lCnt r p = 0
      · by_cases hr : rCnt r p = 0
        · simp [hl, hr]
        · have h1 : ¬(lCnt r p + rCnt r p = 0) := by omega
          have hb : bumpN tp (rowFmt r) (parsePts r.rbody) (rCnt r p) emptyBucket
              = rowBump tp p r emptyBucket := by
            conv_lhs =>
              rw [show emptyBucket =
                bumpN tp (rowFmt r) (parsePts r.lbody) (lCnt r p) emptyBucket from by
                  rw [hl, bumpN_zero]]
            exact bumpN_bumpN_eq_rowBump tp p r emptyBucket hkr
          simp [hl, hr, h1, hb]
      · have h1 : ¬(lCnt r p + rCnt r p = 0) := by omega
        simp [hl, h1, bumpN_bumpN_eq_rowBump tp p r emptyBucket hkr]
  · have hz : creditsOf p r = 0 := by simp [creditsOf, rowFmt, hk]
    simp only [rowStep, if_neg hk]
    cases h : lookupA st p with
    | some b => simp [h, rowBump_of_credits_zero tp p r b hz]
    | none => simp [h, hz]

theorem lookupA_rowStep_nopass (tm : List (String × String)) (selT : List String)
    (p tp : String) (htm : lookupA tm p = some tp) (hnp : ¬(selT = [] ∨ tp ∈ selT))
    (st : List (String × Bucket)) (r : Row) :
    lookupA (rowStep tm selT st r) p = lookupA st p := by
  by_cases hk : pyStrip r.format ∈ FMT_KEYS
  · simp only [rowStep, if_pos hk]
    rw [lookupA_creditSide_nopass ("Righties") tm selT (pyStrip r.format) (parsePts r.rbody)
        p tp htm hnp (sideNames r.r1 r.r2)]
    rw [lookupA_creditSide_nopass ("Lefties") tm selT (pyStrip r.format) (parsePts r.lbody)
        p tp htm hnp (sideNames r.l1 r.l2)]
  · simp [rowStep, hk]

theorem listExt_nil (tp p : String) (b : Bucket) : listExt tp p [] b = b := by
  cases b; simp [listExt]

theorem listExt_cons (tp p : String) (r : Row) (rows : List Row) (b : Bucket) :
    listExt tp p (r :: rows) b = listExt tp p rows (rowBump tp p r b) := by
  have hteam : (rowBump tp p r b).team = if creditsOf p r = 0 then b.team else tp := by
    by_cases hz : creditsOf p r = 0
    · rw [rowBump_of_credits_zero tp p r b hz, if_pos hz]
    · rw [if_neg hz]
      by_cases hk : rowFmt r ∈ FMT_KEYS
      · have : ¬(lCnt r p + rCnt r p = 0) := by
          intro hlr
          exact hz (by simp [creditsOf, hk, hlr])
        simp [rowBump, hk, this]
      · exact absurd (by simp [creditsOf, hk]) hz
  have hfs : (rowBump tp p r b).fsPts = b.fsPts + contribP p ("Foursome") r ∧
      (rowBump tp p r b).fsCnt = b.fsCnt + contribC p ("Foursome") r ∧
      (rowBump tp p r b).fbPts = b.fbPts + contribP p ("Fourball") r ∧
      (rowBump tp p r b).fbCnt = b.fbCnt + contribC p ("Fourball") r ∧
      (rowBump tp p r b).siPts = b.siPts + contribP p ("Single") r ∧
      (rowBump tp p r b).siCnt = b.siCnt + contribC p ("Single") r := by
    by_cases hk : rowFmt r ∈ FMT_KEYS
    · simp [rowBump, hk]
    · have hP : ∀ f, f ∈ FMT_KEYS → contribP p f r = 0 := by
        intro f hf
        have : ¬(rowFmt r = f) := fun h => hk (h ▸ hf)
        simp [contribP, this]
      have hC : ∀ f, f ∈ FMT_KEYS → contribC p f r = 0 := by
        intro f hf
        have : ¬(rowFmt r = f) := fun h => hk (h ▸ hf)
        simp [contribC, this]
      simp [rowBump, hk, hP ("Foursome") (by simp [FMT_KEYS]),
        hC ("Foursome") (by simp [FMT_KEYS]), hP ("Fourball") (by simp [FMT_KEYS]),
        hC ("Fourball") (by simp [FMT_KEYS]), hP ("Single") (by simp [FMT_KEYS]),
        hC ("Single") (by simp [FMT_KEYS])]
  obtain ⟨h1, h2, h3, h4, h5, h6⟩ := hfs
  simp only [listExt, List.map_cons, List.sum_cons, Bucket.mk.injEq, hteam, h1, h2, h3,
    h4, h5, h6]
  refine ⟨?_, by ring, by omega, by ring, by omega, by ring, by omega⟩
  by_cases hz : creditsOf p r = 0
  · simp [hz]
  · have : ¬(creditsOf p r + (rows.map (creditsOf p)).sum = 0) := by omega
    simp [hz, this]

theorem lookupA_foldl_pass (tm : List (String × String)) (selT : List String)
    (p tp : String) (htm : lookupA tm p = some tp) (hpass : selT = [] ∨ tp ∈ selT)
    (rows : List Row) :
    ∀ st : List (String × Bucket),
      lookupA (rows.foldl (rowStep tm selT) st) p =
        match lookupA st p with
        | some b => some (listExt tp p rows b)
        | none =>
          if (rows.map (creditsOf p)).sum = 0 then none
          else some (listExt tp p rows emptyBucket) := by
  induction rows with
  | nil =>
    intro st
    cases h : lookupA st p <;> simp [h, listExt_nil]
  | cons r rest ih =>
    intro st
    rw [List.foldl_cons, ih (rowStep tm selT st r),
      lookupA_rowStep_pass tm selT p tp htm hpass st r]
    cases h : lookupA st p with
    | some b =>
      simp only [listExt_cons]
    | none =>
      by_cases hz : creditsOf p r = 0
      · have hb : listExt tp p (r :: rest) emptyBucket = listExt tp p rest emptyBucket := by
          rw [listExt_cons, rowBump_of_credits_zero tp p r emptyBucket hz]
        simp [hz, hb]
      · have h1 : ¬(creditsOf p r + (rest.map (creditsOf p)).sum = 0) := by omega
        simp [hz, h1, listExt_cons]

theorem lookupA_foldl_nopass (tm : List (String × String)) (selT : List String)
    (p tp : String) (htm : lookupA tm p = some tp) (hnp : ¬(selT = [] ∨ tp ∈ selT))
    (rows : List Row) :
    ∀ st : List (String × Bucket),
      lookupA (rows.foldl (rowStep tm selT) st) p = lookupA st p := by
  induction rows with
  | nil => intro st; rfl
  | cons r rest ih =>
    intro st
    rw [List.foldl_cons, ih (rowStep tm selT st r),
      lookupA_rowStep_nopass tm selT p tp htm hnp st r]

/-! ## Helper lemmas: rounding -/

theorem pyRound_nearest (q : ℚ) : |(pyRound q : ℚ) - q| ≤ 1/2 := by
  have h1 : ((⌊q⌋ : Int) : ℚ) ≤ q := Int.floor_le q
  have h2 : q < ((⌊q⌋ : Int) : ℚ) + 1 := Int.lt_floor_add_one q
  rw [abs_le]
  unfold pyRound
  split_ifs with hf1 hf2 hf3 <;> push_cast <;> constructor <;> linarith

/-! ## Helper lemmas: split tokens and strip -/

theorem splitWsAux_tokens :
    ∀ (cs cur : List Char), (∀ c ∈ cur, c.isWhitespace = false) →
      ∀ t ∈ splitWsAux cs cur, t.data ≠ [] ∧ ∀ c ∈ t.data, c.isWhitespace = false := by
  intro cs
  induction cs with
  | nil =>
    intro cur hcur t ht
    by_cases h : cur = []
    · simp [splitWsAux, h] at ht
    · simp [splitWsAux, h] at ht
      subst ht
      refine ⟨by simpa using h, ?_⟩
      intro c hc
      exact hcur c (by simpa using hc)
  | cons a cs ih =>
    intro cur hcur t ht
    by_cases hws : a.isWhitespace = true
    · by_cases h : cur = []
      · simp [splitWsAux, hws, h] at ht
        exact ih [] (by simp) t ht
      · simp [splitWsAux, hws, h] at ht
        rcases ht with ht | ht
        · subst ht
          refine ⟨by simpa using h, ?_⟩
          intro c hc
          exact hcur c (by simpa using hc)
        · exact ih [] (by simp) t ht
    · simp [splitWsAux, hws] at ht
      refine ih (a :: cur) ?_ t ht
      intro c hc
      rcases List.mem_cons.mp hc with hc | hc
      · subst hc
        exact Bool.eq_false_iff.mpr hws
      · exact hcur c hc

theorem pySplit_tokens (s : String) :
    ∀ t ∈ pySplit s, t.data ≠ [] ∧ ∀ c ∈ t.data, c.isWhitespace = false := by
  intro t ht
  exact splitWsAux_tokens s.data [] (by simp) t ht

theorem dropWhile_of_head_false (p : Char → Bool) (l : List Char) (c : Char)
    (hh : l.head? = some c) (hc : p c = false) : l.dropWhile p = l := by
  cases l with
  | nil => simp at hh
  | cons a t =>
    have : a = c := by simpa using hh
    subst this
    simp [List.dropWhile_cons, hc]

theorem pyStrip_eq_self (c d : Char) (l : List Char)
    (hh : l.head? = some c) (hl : l.getLast? = some d)
    (hc : c.isWhitespace = false) (hd : d.isWhitespace = false) :
    pyStrip ⟨l⟩ = ⟨l⟩ := by
  have h1 : l.dropWhile Char.isWhitespace = l := dropWhile_of_head_false _ l c hh hc
  have h2 : l.reverse.dropWhile Char.isWhitespace = l.reverse := by
    refine dropWhile_of_head_false _ _ d ?_ hd
    rw [List.head?_reverse]
    exact hl
  show (⟨((l.dropWhile Char.isWhitespace).reverse.dropWhile Char.isWhitespace).reverse⟩ : String)
      = ⟨l⟩
  rw [h1, h2, List.reverse_reverse]

/-! ## Helper lemmas: the code-point order -/

theorem charListLt_irrefl : ∀ l, charListLt l l = false := by
  intro l
  induction l with
  | nil => rfl
  | cons c cs ih => simp [charListLt, ih]

theorem charListLt_asymm : ∀ l m, charListLt l m = true → charListLt m l = false := by
  intro l
  induction l with
  | nil =>
    intro m h
    cases m with
    | nil => simpa [charListLt] using h
    | cons d ds => simp [charListLt]
  | cons c cs ih =>
    intro m h
    cases m with
    | nil => simpa [charListLt] using h
    | cons d ds =>
      by_cases h1 : c < d
      · have h2 : ¬d < c := lt_asymm h1
        simp [charListLt, h1, h2]
      · by_cases h2 : d < c
        · simp [charListLt, h1, h2] at h
        · simp only [charListLt, if_neg h1, if_neg h2] at h
          simp only [charListLt, if_neg h2, if_neg h1]
          exact ih ds h

theorem charListLt_trans : ∀ l m n, charListLt l m = true → charListLt m n = true →
    charListLt l n = true := by
  intro l
  induction l with
  | nil =>
    intro m n h1 h2
    cases m with
    | nil => simpa [charListLt] using h1
    | cons d ds =>
      cases n with
      | nil => simpa [charListLt] using h2
      | cons e es => simp [charListLt]
  | cons c cs ih =>
    intro m n h1 h2
    cases m with
    | nil => simpa [charListLt] using h1
    | cons d ds =>
      cases n with
      | nil => simpa [charListLt] using h2
      | cons e es =>
        by_cases hcd : c < d
        · by_cases hde : d < e
          · have : c < e := lt_trans hcd hde
            simp [charListLt, this]
          · by_cases hed : e < d
            · simp [charListLt, hde, hed] at h2
            · have hde' : d = e := le_antisymm (not_lt.mp hed) (not_lt.mp hde)
              subst hde'
              simp [charListLt, hcd]
        · by_cases hdc : d < c
          · simp [charListLt, hcd, hdc] at h1
          · have hcd' : c = d := le_antisymm (not_lt.mp hdc) (not_lt.mp hcd)
            subst hcd'
            by_cases hce : c < e
            · simp [charListLt, hce]
            · by_cases hec : e < c
              · simp [charListLt, hce, hec] at h2
              · simp only [charListLt, if_neg hce, if_neg hec] at h2 ⊢
                simp only [charListLt, if_neg hcd, if_neg (lt_irrefl c)] at h1
                exact ih ds es h1 h2

theorem charListLt_conn : ∀ l m, l ≠ m → charListLt l m = true ∨ charListLt m l = true := by
  intro l
  induction l with
  | nil =>
    intro m h
    cases m with
    | nil => exact absurd rfl h
    | cons d ds => left; simp [charListLt]
  | cons c cs ih =>
    intro m h
    cases m with
    | nil => right; simp [charListLt]
    | cons d ds =>
      by_cases hcd : c < d
      · left; simp [charListLt, hcd]
      · by_cases hdc : d < c
        · right; simp [charListLt, hdc]
        · have hcd' : c = d := le_antisymm (not_lt.mp hdc) (not_lt.mp hcd)
          subst hcd'
          have hne : cs ≠ ds := fun he => h (by rw [he])
          rcases ih ds hne with h1 | h1
          · left
            simp only [charListLt, if_neg (lt_irrefl c)]
            exact h1
          · right
            simp only [charListLt, if_neg (lt_irrefl c)]
            exact h1

theorem pyStrLt_conn (a b : String) (h : a ≠ b) :
    pyStrLt a b = true ∨ pyStrLt b a = true := by
  have hdata : a.data ≠ b.data := fun he => h (String.ext he)
  exact charListLt_conn a.data b.data hdata

theorem pyStrLt_asymm (a b : String) (h : pyStrLt a b = true) : pyStrLt b a = false :=
  charListLt_asymm a.data b.data h

theorem pyStrLt_trans (a b c : String) (h1 : pyStrLt a b = true) (h2 : pyStrLt b c = true) :
    pyStrLt a c = true :=
  charListLt_trans a.data b.data c.data h1 h2

theorem pyStrLt_irrefl (a : String) : pyStrLt a a = false :=
  charListLt_irrefl a.data

/-! ## Order instances for the sorts -/

instance : IsTotal OppRow oppLe :=
  ⟨by
    intro a b
    rcases lt_trichotomy a.succ b.succ with h | h | h
    · exact Or.inr (Or.inl h)
    · rcases lt_trichotomy a.pts b.pts with h2 | h2 | h2
      · exact Or.inr (Or.inr ⟨h.symm, Or.inl h2⟩)
      · by_cases h3 : a.name = b.name
        · exact Or.inl (Or.inr ⟨h, Or.inr ⟨h2, Or.inl h3⟩⟩)
        · rcases pyStrLt_conn a.name b.name h3 with h4 | h4
          · exact Or.inl (Or.inr ⟨h, Or.inr ⟨h2, Or.inr h4⟩⟩)
          · exact Or.inr (Or.inr ⟨h.symm, Or.inr ⟨h2.symm, Or.inr h4⟩⟩)
      · exact Or.inl (Or.inr ⟨h, Or.inl h2⟩)
    · exact Or.inl (Or.inl h)⟩

instance : IsTrans OppRow oppLe :=
  ⟨by
    intro a b c hab hbc
    rcases hab with hab | ⟨habs, hab⟩
    · rcases hbc with hbc | ⟨hbcs, hbc⟩
      · exact Or.inl (lt_trans hbc hab)
      · exact Or.inl (hbcs ▸ hab)
    · rcases hbc with hbc | ⟨hbcs, hbc⟩
      · exact Or.inl (habs ▸ hbc)
      · refine Or.inr ⟨habs.trans hbcs, ?_⟩
        rcases hab with hab | ⟨habp, hab⟩
        · rcases hbc with hbc | ⟨hbcp, hbc⟩
          · exact Or.inl (lt_trans hbc hab)
          · exact Or.inl (hbcp ▸ hab)
        · rcases hbc with hbc | ⟨hbcp, hbc⟩
          · exact Or.inl (habp ▸ hbc)
          · refine Or.inr ⟨habp.trans hbcp, ?_⟩
            rcases hab with hab | hab
            · rcases hbc with hbc | hbc
              · exact Or.inl (hab.trans hbc)
              · exact Or.inr (hab ▸ hbc)
            · rcases hbc with hbc | hbc
              · exact Or.inr (hbc ▸ hab)
              · exact Or.inr (pyStrLt_trans _ _ _ hab hbc)⟩

instance (xf : String → String) : IsTotal String (abcLe xf) :=
  ⟨by
    intro a b
    by_cases h1 : xf (surnameOf a) = xf (surnameOf b)
    · by_cases h2 : xf a = xf b
      · exact Or.inl (Or.inr ⟨h1, Or.inl h2⟩)
      · rcases pyStrLt_conn (xf a) (xf b) h2 with h3 | h3
        · exact Or.inl (Or.inr ⟨h1, Or.inr h3⟩)
        · exact Or.inr (Or.inr ⟨h1.symm, Or.inr h3⟩)
    · rcases pyStrLt_conn (xf (surnameOf a)) (xf (surnameOf b)) h1 with h3 | h3
      · exact Or.inl (Or.inl h3)
      · exact Or.inr (Or.inl h3)⟩

instance (xf : String → String) : IsTrans String (abcLe xf) :=
  ⟨by
    intro a b c hab hbc
    rcases hab with hab | ⟨habs, hab⟩
    · rcases hbc with hbc | ⟨hbcs, hbc⟩
      · exact Or.inl (pyStrLt_trans _ _ _ hab hbc)
      · exact Or.inl (hbcs ▸ hab)
    · rcases hbc with hbc | ⟨hbcs, hbc⟩
      · exact Or.inl (habs ▸ hbc)
      · refine Or.inr ⟨habs.trans hbcs, ?_⟩
        rcases hab with hab | hab
        · rcases hbc with hbc | hbc
          · exact Or.inl (hab.trans hbc)
          · exact Or.inr (hab ▸ hbc)
        · rcases hbc with hbc | hbc
          · exact Or.inr (hbc ▸ hab)
          · exact Or.inr (pyStrLt_trans _ _ _ hab hbc)⟩

theorem oppLt_or_of_name_ne (a b : OppRow) (h : a.name ≠ b.name) :
    oppLt a b ∨ oppLt b a := by
  rcases lt_trichotomy a.succ b.succ with h1 | h1 | h1
  · exact Or.inr (Or.inl h1)
  · rcases lt_trichotomy a.pts b.pts with h2 | h2 | h2
    · exact Or.inr (Or.inr ⟨h1.symm, Or.inl h2⟩)
    · rcases pyStrLt_conn a.name b.name h with h3 | h3
      · exact Or.inl (Or.inr ⟨h1, Or.inr ⟨h2, h3⟩⟩)
      · exact Or.inr (Or.inr ⟨h1.symm, Or.inr ⟨h2.symm, h3⟩⟩)
    · exact Or.inl (Or.inr ⟨h1, Or.inl h2⟩)
  · exact Or.inl (Or.inl h1)

theorem oppLt_asymm (a b : OppRow) : ¬(oppLt a b ∧ oppLt b a) := by
  rintro ⟨hab, hba⟩
  rcases hab with hab | ⟨habs, hab⟩
  · rcases hba with hba | ⟨hbas, hba⟩
    · exact absurd hab (lt_asymm hba)
    · exact absurd hab (hbas ▸ lt_irrefl _)
  · rcases hba with hba | ⟨hbas, hba⟩
    · exact absurd hba (habs ▸ lt_irrefl _)
    · rcases hab with hab | ⟨habp, hab⟩
      · rcases hba with hba | ⟨hbap, hba⟩
        · exact absurd hab (lt_asymm hba)
        · exact absurd hab (hbap ▸ lt_irrefl _)
      · rcases hba with hba | ⟨hbap, hba⟩
        · exact absurd hba (habp ▸ lt_irrefl _)
        · have hfalse := pyStrLt_asymm a.name b.name hab
          rw [hba] at hfalse
          simp at hfalse

/-! ## Helper lemmas: percentages and players membership -/

theorem pct_props (x : ℚ) (c : Nat) :
    (c = 0 → pct x c = 0) ∧
      (c ≠ 0 → pct x c = pyRound (x / c * 100) ∧ |(pct x c : ℚ) - x / c * 100| ≤ 1/2) := by
  constructor
  · intro hc
    simp [pct, hc]
  · intro hc
    have h1 : pct x c = pyRound (x / c * 100) := by simp [pct, hc]
    exact ⟨h1, h1 ▸ pyRound_nearest (x / c * 100)⟩

theorem mem_union_keys {p : String} {ka kb : List String} :
    p ∈ ka ++ kb.filter (fun q => q ∉ ka) ↔ p ∈ ka ∨ p ∈ kb := by
  simp only [List.mem_append, List.mem_filter, decide_eq_true_eq]
  by_cases h : p ∈ ka <;> simp [h]

/-! ## The claims -/

/-- C1 (corrected), counterexample: in the top-level app.py variant of
compute_stats_for_filtered there is no guard for an explicitly empty years
selection, so calling it on a one-row table with years = some [] (explicit
empty selection), formats = some [Single] and no team restriction returns a
non-empty result, refuting the claim that an explicitly empty selection of
years always yields an empty result. -/
theorem claim_C1_counterexample :
    compute_stats_for_filtered [oneMatch] (some []) (some ["Single"]) [] [] ≠ [] := by
  with_unfolding_all decide

/-- C1 (corrected), amended: the Logo/app.py variant returns an empty result
for an explicitly empty years selection, while the top-level app.py variant
treats the explicitly empty years selection exactly like the all-years
sentinel (none), under which every row passes the year predicate. -/
theorem claim_C1_amended (rows : List Row) (fs : Option (List String))
    (tms : List String) (tm : List (String × String)) :
    compute_stats_for_filtered_logo rows (some []) fs tms tm = [] ∧
      compute_stats_for_filtered rows (some []) fs tms tm =
        compute_stats_for_filtered rows none fs tms tm ∧
      ∀ r : Row, yearPass none r = true := by
  refine ⟨?_, ?_, fun r => rfl⟩
  · unfold compute_stats_for_filtered_logo
    split_ifs with h1 h2
    · rfl
    · rfl
    · exact absurd rfl h2
  · unfold compute_stats_for_filtered
    by_cases h : fs = some []
    · simp [h]
    · simp only [if_neg h]
      unfold compute_stats_core statsState filterRows
      have hfe : rows.filter (yearPass (some [])) = rows.filter (yearPass none) :=
        List.filter_congr (fun x _ => rfl)
      rw [hfe]

/-- C2 (confirmed): on the spec's concrete three-match scenario with all
years, formats and teams selected and the team map built from the same table,
the aggregate row generated for the slot name "Adam Nowak" (displayed
"Nowak Adam" by the Surname-Given display transform) holds Single points 1,
matches 2, success 50; Foursome points 0.5, matches 1, success 50; Total
points 1.5, matches 3, success 50 (and an empty Fourball bucket). -/
theorem claim_C2 :
    List.find? (fun row => row.hrac == "Nowak Adam")
      (compute_stats_for_filtered scenarioMatches (some [2024])
        (some ["Foursome", "Fourball", "Single"]) ["Lefties", "Righties"]
        (build_player_team_map scenarioMatches)) =
    some ⟨"Nowak Adam", "Lefties", mkRat 1 2, 1, 50, 0, 0, 0, 1, 2, 50, mkRat 3 2, 3, 50⟩ := by
  with_unfolding_all rfl

/-- C3 (confirmed): for every match table and every player name with at least
one cleaned occurrence in the four player slots, build_player_team_map maps
the player to Lefties when the left count exceeds the right count, to
Righties when the right count exceeds the left count, and on a tie to Lefties
when the left count is positive, else Righties when the right count is
positive, else Lefties. -/
theorem claim_C3 (rows : List Row) (p : String)
    (h : 0 < cntL rows p + cntR rows p) :
    lookupA (build_player_team_map rows) p =
      some (if cntL rows p > cntR rows p then "Lefties"
        else if cntR rows p > cntL rows p then "Righties"
        else if cntL rows p > 0 then "Lefties"
        else if cntR rows p > 0 then "Righties"
        else "Lefties") := by
  have hkL : p ∈ (cntLDict rows).map (·.1) ↔ 0 < cntL rows p := by
    unfold cntLDict cntL
    exact mem_keys_cntDict p _
  have hkR : p ∈ (cntRDict rows).map (·.1) ↔ 0 < cntR rows p := by
    unfold cntRDict cntR
    exact mem_keys_cntDict p _
  have hvL : (lookupA (cntLDict rows) p).getD 0 = cntL rows p := by
    unfold cntLDict cntL
    exact lookupA_cntDict p _
  have hvR : (lookupA (cntRDict rows) p).getD 0 = cntR rows p := by
    unfold cntRDict cntR
    exact lookupA_cntDict p _
  have hmem : p ∈ (cntLDict rows).map (·.1) ++
      ((cntRDict rows).map (·.1)).filter (fun q => q ∉ (cntLDict rows).map (·.1)) := by
    rw [mem_union_keys, hkL, hkR]
    omega
  unfold build_player_team_map
  rw [lookupA_map_self, if_pos hmem, hvL, hvR]
  simp only [teamFor]

/-- C3 witness: in the spec's concrete scenario, Boris Varga has one left-slot
and two right-slot appearances and is classified Righties. -/
theorem claim_C3_witness :
    0 < cntL scenarioMatches "Boris Varga" + cntR scenarioMatches "Boris Varga" ∧
      lookupA (build_player_team_map scenarioMatches) "Boris Varga" =
        some (if cntL scenarioMatches "Boris Varga" > cntR scenarioMatches "Boris Varga"
          then "Lefties"
          else if cntR scenarioMatches "Boris Varga" > cntL scenarioMatches "Boris Varga"
            then "Righties"
          else if cntL scenarioMatches "Boris Varga" > 0 then "Lefties"
          else if cntR scenarioMatches "Boris Varga" > 0 then "Righties"
          else "Lefties") :=
  ⟨by with_unfolding_all decide,
    claim_C3 scenarioMatches ("Boris Varga") (by with_unfolding_all decide)⟩

/-- C5 (confirmed): every aggregate output row of compute_stats_for_filtered
carries, for each of the three format buckets and the Total bucket, a success
percentage that is 0 when the bucket's match count is 0 and otherwise equals
the Python round (half to even) of points / count * 100 — in particular it is
an integer within 1/2 of the exact percentage, i.e. a nearest integer. -/
theorem claim_C5 (rows : List Row) (ys : Option (List Int)) (fs : Option (List String))
    (tms : List String) (tm : List (String × String)) (row : OutRow)
    (hmem : row ∈ compute_stats_for_filtered rows ys fs tms tm) :
    ((row.fsCnt = 0 → row.fsPct = 0) ∧
      (row.fsCnt ≠ 0 → row.fsPct = pyRound (row.fsPts / row.fsCnt * 100) ∧
        |(row.fsPct : ℚ) - row.fsPts / row.fsCnt * 100| ≤ 1/2)) ∧
    ((row.fbCnt = 0 → row.fbPct = 0) ∧
      (row.fbCnt ≠ 0 → row.fbPct = pyRound (row.fbPts / row.fbCnt * 100) ∧
        |(row.fbPct : ℚ) - row.fbPts / row.fbCnt * 100| ≤ 1/2)) ∧
    ((row.siCnt = 0 → row.siPct = 0) ∧
      (row.siCnt ≠ 0 → row.siPct = pyRound (row.siPts / row.siCnt * 100) ∧
        |(row.siPct : ℚ) - row.siPts / row.siCnt * 100| ≤ 1/2)) ∧
    ((row.totCnt = 0 → row.totPct = 0) ∧
      (row.totCnt ≠ 0 → row.totPct = pyRound (row.totPts / row.totCnt * 100) ∧
        |(row.totPct : ℚ) - row.totPts / row.totCnt * 100| ≤ 1/2)) := by
  unfold compute_stats_for_filtered at hmem
  by_cases h : fs = some []
  · rw [if_pos h] at hmem
    simp at hmem
  · rw [if_neg h] at hmem
    unfold compute_stats_core at hmem
    rcases List.mem_map.mp hmem with ⟨⟨p, b⟩, _, rfl⟩
    simp only [mkOutRow]
    exact ⟨pct_props b.fsPts b.fsCnt, pct_props b.fbPts b.fbCnt, pct_props b.siPts b.siCnt,
      pct_props (b.fsPts + b.fbPts + b.siPts) (b.fsCnt + b.fbCnt + b.siCnt)⟩

/-- C5 witness: the property instantiated at the Adam Nowak row of the spec's
concrete scenario. -/
theorem claim_C5_witness :
    (⟨"Nowak Adam", "Lefties", mkRat 1 2, 1, 50, 0, 0, 0, 1, 2, 50, mkRat 3 2, 3, 50⟩ : OutRow) ∈
      compute_stats_for_filtered scenarioMatches (some [2024])
        (some ["Foursome", "Fourball", "Single"]) ["Lefties", "Righties"]
        (build_player_team_map scenarioMatches) ∧
    ((⟨"Nowak Adam", "Lefties", mkRat 1 2, 1, 50, 0, 0, 0, 1, 2, 50,
        mkRat 3 2, 3, 50⟩ : OutRow).siCnt ≠ 0 →
      (⟨"Nowak Adam", "Lefties", mkRat 1 2, 1, 50, 0, 0, 0, 1, 2, 50,
        mkRat 3 2, 3, 50⟩ : OutRow).siPct =
        pyRound ((⟨"Nowak Adam", "Lefties", mkRat 1 2, 1, 50, 0, 0, 0, 1, 2, 50,
          mkRat 3 2, 3, 50⟩ : OutRow).siPts /
            (⟨"Nowak Adam", "Lefties", mkRat 1 2, 1, 50, 0, 0, 0, 1, 2, 50,
              mkRat 3 2, 3, 50⟩ : OutRow).siCnt * 100) ∧
        |((⟨"Nowak Adam", "Lefties", mkRat 1 2, 1, 50, 0, 0, 0, 1, 2, 50,
            mkRat 3 2, 3, 50⟩ : OutRow).siPct : ℚ) -
          (⟨"Nowak Adam", "Lefties", mkRat 1 2, 1, 50, 0, 0, 0, 1, 2, 50,
            mkRat 3 2, 3, 50⟩ : OutRow).siPts /
            (⟨"Nowak Adam", "Lefties", mkRat 1 2, 1, 50, 0, 0, 0, 1, 2, 50,
              mkRat 3 2, 3, 50⟩ : OutRow).siCnt * 100| ≤ 1/2) :=
  ⟨by with_unfolding_all decide,
    (claim_C5 scenarioMatches (some [2024]) (some ["Foursome", "Fourball", "Single"])
      ["Lefties", "Righties"] (build_player_team_map scenarioMatches) _
      (by with_unfolding_all decide)).2.2.1.2⟩

set_option maxRecDepth 10000 in
/-- C4 (corrected), counterexample: with an empty team map, swapping the two
rows of a table in which player X appears once on the left and once on the
right changes the output of compute_stats_for_filtered (the Team field records
the side default of the last credit, so it flips between Righties and
Lefties), refuting order-independence as stated. -/
theorem claim_C4_counterexample :
    List.Perm [xLeftRow, xRightRow] [xRightRow, xLeftRow] ∧
      compute_stats_for_filtered [xLeftRow, xRightRow] none none [] [] ≠
        compute_stats_for_filtered [xRightRow, xLeftRow] none none [] [] := by
  with_unfolding_all decide

/-- C4 (corrected), amended: compute_stats_for_filtered is a pure function of
its inputs, and for every player that has an entry in the team map, permuting
the input rows leaves that player's aggregate output row (bucket and emitted
rows_num entry) unchanged; only the order of the emitted rows and the Team
field of players absent from the team map can depend on row order. -/
theorem claim_C4_amended (rows rows' : List Row) (ys : Option (List Int))
    (fs : Option (List String)) (tms : List String) (tm : List (String × String))
    (p tp : String) (hperm : rows.Perm rows') (htm : lookupA tm p = some tp) :
    playerOutRow rows ys fs tms tm p = playerOutRow rows' ys fs tms tm p := by
  unfold playerOutRow statsState
  have hperm2 : (filterRows ys fs rows).Perm (filterRows ys fs rows') := by
    unfold filterRows
    exact (hperm.filter _).filter _
  by_cases hpass : tms = [] ∨ tp ∈ tms
  · rw [lookupA_foldl_pass tm tms p tp htm hpass _ [],
      lookupA_foldl_pass tm tms p tp htm hpass _ []]
    have hsum : ∀ g : Row → Nat,
        ((filterRows ys fs rows).map g).sum = ((filterRows ys fs rows').map g).sum :=
      fun g => (hperm2.map g).sum_eq
    have hsumq : ∀ g : Row → ℚ,
        ((filterRows ys fs rows).map g).sum = ((filterRows ys fs rows').map g).sum :=
      fun g => (hperm2.map g).sum_eq
    have hext : listExt tp p (filterRows ys fs rows) emptyBucket =
        listExt tp p (filterRows ys fs rows') emptyBucket := by
      unfold listExt
      rw [hsum (creditsOf p), hsumq (contribP p ("Foursome")), hsum (contribC p ("Foursome")),
        hsumq (contribP p ("Fourball")), hsum (contribC p ("Fourball")),
        hsumq (contribP p ("Single")), hsum (contribC p ("Single"))]
    simp only [lookupA]
    rw [hsum (creditsOf p), hext]
  · rw [lookupA_foldl_nopass tm tms p tp htm hpass,
      lookupA_foldl_nopass tm tms p tp htm hpass]

set_option maxRecDepth 10000 in
/-- C4 witness: the amended invariance instantiated at the two-row swap with
player X present in the team map. -/
theorem claim_C4_amended_witness :
    List.Perm [xLeftRow, xRightRow] [xRightRow, xLeftRow] ∧
      lookupA [("X", "Lefties")] "X" = some "Lefties" ∧
      playerOutRow [xLeftRow, xRightRow] none none [] [("X", "Lefties")] "X" =
        playerOutRow [xRightRow, xLeftRow] none none [] [("X", "Lefties")] "X" :=
  ⟨by with_unfolding_all decide, by with_unfolding_all decide,
    claim_C4_amended [xLeftRow, xRightRow] [xRightRow, xLeftRow] none none [] _ ("X")
      ("Lefties") (by with_unfolding_all decide) (by with_unfolding_all decide)⟩

set_option maxRecDepth 10000 in
/-- C6 (corrected), counterexample: two opponent keys that differ only by a
doubled interior space collapse to the same display name, so the opponents
table can contain two distinct rows (different win/draw/loss splits) that tie
on all three sort keys (success, points, display name): the three-key
comparator does not order every pair of distinct output rows. -/
theorem claim_C6_counterexample :
    opponents_table "P" "Lefties" oppTieRows =
        some [⟨"b a", 1, 0, 1, 1, 2, 50⟩, ⟨"b a", 0, 2, 0, 1, 2, 50⟩] ∧
      (⟨"b a", 1, 0, 1, 1, 2, 50⟩ : OppRow) ≠ ⟨"b a", 0, 2, 0, 1, 2, 50⟩ ∧
      (⟨"b a", 1, 0, 1, 1, 2, 50⟩ : OppRow).succ = (⟨"b a", 0, 2, 0, 1, 2, 50⟩ : OppRow).succ ∧
      (⟨"b a", 1, 0, 1, 1, 2, 50⟩ : OppRow).pts = (⟨"b a", 0, 2, 0, 1, 2, 50⟩ : OppRow).pts ∧
      (⟨"b a", 1, 0, 1, 1, 2, 50⟩ : OppRow).name = (⟨"b a", 0, 2, 0, 1, 2, 50⟩ : OppRow).name := by
  with_unfolding_all decide

/-- C6 (corrected), amended: the opponents table is sorted by success
percentage descending, then points descending, then opponent display name
ascending, and any two output rows with distinct display names are strictly
ordered one way and only one way by that comparator; rows of distinct
opponent keys sharing one display name can tie on all three keys. -/
theorem claim_C6_amended (sel team : String) (rows : List Row) (out : List OppRow)
    (h : opponents_table sel team rows = some out) :
    List.Sorted oppLe out ∧
      ∀ a ∈ out, ∀ b ∈ out, a.name ≠ b.name →
        (oppLt a b ∨ oppLt b a) ∧ ¬(oppLt a b ∧ oppLt b a) := by
  unfold opponents_table at h
  rcases Option.map_eq_some'.mp h with ⟨st, _, rfl⟩
  constructor
  · exact List.sorted_insertionSort oppLe _
  · intro a _ b _ hne
    exact ⟨oppLt_or_of_name_ne a b hne, oppLt_asymm a b⟩

set_option maxRecDepth 10000 in
/-- C6 witness: the amended sortedness and comparability at the concrete
tying input. -/
theorem claim_C6_amended_witness :
    opponents_table "P" "Lefties" oppTieRows =
        some [⟨"b a", 1, 0, 1, 1, 2, 50⟩, ⟨"b a", 0, 2, 0, 1, 2, 50⟩] ∧
      (List.Sorted oppLe [⟨"b a", 1, 0, 1, 1, 2, 50⟩, ⟨"b a", 0, 2, 0, 1, 2, 50⟩] ∧
        ∀ a ∈ [(⟨"b a", 1, 0, 1, 1, 2, 50⟩ : OppRow), ⟨"b a", 0, 2, 0, 1, 2, 50⟩],
          ∀ b ∈ [(⟨"b a", 1, 0, 1, 1, 2, 50⟩ : OppRow), ⟨"b a", 0, 2, 0, 1, 2, 50⟩],
            a.name ≠ b.name → (oppLt a b ∨ oppLt b a) ∧ ¬(oppLt a b ∧ oppLt b a)) :=
  ⟨by with_unfolding_all decide,
    claim_C6_amended ("P") ("Lefties") oppTieRows _ (by with_unfolding_all decide)⟩

/-- C8 (corrected), counterexample: when the Slovak/Czech locale could not be
set (sk_locale_ok false), the statistics-table alphabetic sort falls back to
casefold keys, which order "Jan Chren" before "Jan Cibula" — while the
target collation with "ch" as a single unit between "h" and "i" (modelled
from the spec) orders the surname cibula strictly before chren.  The fallback
therefore does not realize the digraph collation. -/
theorem claim_C8_counterexample :
    abc_sorted_names (fun s => s) false ["Jan Cibula", "Jan Chren"] =
        ["Jan Chren", "Jan Cibula"] ∧
      specCollLt (asciiCasefold (surnameOf "Jan Cibula"))
        (asciiCasefold (surnameOf "Jan Chren")) := by
  with_unfolding_all decide

/-- C8 (corrected), amended: the alphabetic sort key is locale.strxfrm only
when a Slovak/Czech locale was set; otherwise the transform is the casefold
fallback, and the sort produces a permutation of its input totally ordered by
the casefold (surname, full name) keys, with no explicit collation table —
so the "ch" collation requirement is not realized in the fallback. -/
theorem claim_C8_amended (oracle : String → String) (names : List String) :
    (abc_sorted_names oracle false names).Perm names ∧
      List.Sorted (abcLe (sk_xfrm oracle false)) (abc_sorted_names oracle false names) ∧
      ∀ s, sk_xfrm oracle false s = asciiCasefold s :=
  ⟨List.perm_insertionSort _ _, List.sorted_insertionSort _ _, fun _ => rfl⟩

/-! ## Helper lemmas for the points-cell error-path claim -/

theorem filterRowsN_append (ys : Option (List Int)) (fs : Option (List String))
    (A B : List NRow) :
    filterRowsN ys fs (A ++ B) = filterRowsN ys fs A ++ filterRowsN ys fs B := by
  simp [filterRowsN, List.filter_append]

theorem filterRowsN_cons (ys : Option (List Int)) (fs : Option (List String))
    (c : NRow) (B : List NRow) :
    filterRowsN ys fs (c :: B) =
      (if yearPassN ys c && fmtPassN fs c then [c] else []) ++ filterRowsN ys fs B := by
  unfold filterRowsN
  rw [List.filter_cons]
  by_cases h1 : yearPassN ys c = true
  · rw [if_pos h1, List.filter_cons]
    by_cases h2 : fmtPassN fs c = true
    · simp [h1, h2]
    · simp [h1, h2]
  · simp [h1]

/-- C7 (code_bug): the coercion half of the claim is right — an unparsable
text points cell is coerced to 0.0, the player still receives a match-count
credit, and replacing such a cell by the numeric 0 provably never changes the
output — but the totality half is false.  A NaN points cell (an empty
spreadsheet cell) passes float() without raising, so the try/except does not
fire; the NaN propagates into the credited player's points sum, and _pct
evaluates int(round(nan)), which raises ValueError.  Over the full cell model:
the one-row table with a NaN LeftPoints cell makes compute_stats_for_filtered
raise (none); the same table with unparsable text instead returns normally,
with coerced points 0, match count 1 and percentage 0 for both players; and
sanitizing unparsable text cells to 0 never changes the result. -/
theorem claim_C7 :
    compute_stats_for_filteredN [nanPointsRow] none none [] [] = none ∧
      compute_stats_for_filteredN [badTextRow] none none [] [] =
        some
          [⟨"A", "Lefties", some 0, 0, 0, some 0, 0, 0, some 0, 1, 0, some 0, 1, 0⟩,
           ⟨"B", "Righties", some 0, 0, 0, some 0, 0, 0, some 0, 1, 0, some 0, 1, 0⟩] ∧
      ∀ (ys : Option (List Int)) (fs : Option (List String)) (tms : List String)
        (tm : List (String × String)) (pre post : List NRow) (r : NRow),
        compute_stats_for_filteredN (pre ++ r :: post) ys fs tms tm =
          compute_stats_for_filteredN (pre ++ sanitizeRowN r :: post) ys fs tms tm := by
  refine ⟨by with_unfolding_all decide, by with_unfolding_all decide, ?_⟩
  intro ys fs tms tm pre post r
  have hcell : ∀ c : NCell, parsePtsN (sanitizeCellN c) = parsePtsN c := by
    intro c
    cases c <;> rfl
  have hstep : ∀ st, rowStepN tm tms st (sanitizeRowN r) = rowStepN tm tms st r := by
    intro st
    unfold rowStepN
    simp [sanitizeRowN, hcell]
  have hy : yearPassN ys (sanitizeRowN r) = yearPassN ys r := by
    unfold yearPassN sanitizeRowN
    cases ys with
    | none => rfl
    | some l =>
      cases l with
      | nil => rfl
      | cons y ys' => rfl
  have hf : fmtPassN fs (sanitizeRowN r) = fmtPassN fs r := by
    unfold fmtPassN sanitizeRowN
    cases fs with
    | none => rfl
    | some l =>
      cases l with
      | nil => rfl
      | cons g gs => rfl
  unfold compute_stats_for_filteredN
  by_cases h : fs = some []
  · simp [h]
  · simp only [if_neg h]
    unfold compute_stats_coreN statsStateN
    rw [filterRowsN_append, filterRowsN_append, filterRowsN_cons, filterRowsN_cons, hy, hf]
    by_cases hk : (yearPassN ys r && fmtPassN fs r) = true
    · simp [hk, List.foldl_append, hstep]
    · simp [hk, List.foldl_append]

/-- C10 (confirmed): when a match row of a valid format names the same cleaned
player once in a left slot and once in a right slot, and the player's team
passes the team filter, processing the row credits that player twice: the
bucket for the row's format gains LeftPoints plus RightPoints and its match
count grows by 2 (and the recorded team is the team map entry). -/
theorem claim_C10 (teamMap : List (String × String)) (selTeams : List String)
    (st : List (String × Bucket)) (r : Row) (p tp : String)
    (htm : lookupA teamMap p = some tp)
    (hpass : selTeams = [] ∨ tp ∈ selTeams)
    (hk : rowFmt r ∈ FMT_KEYS)
    (hl : lCnt r p = 1) (hr : rCnt r p = 1) :
    (lookupA (rowStep teamMap selTeams st r) p).map (fun b => bucketPts b (rowFmt r)) =
        some (bucketPts ((lookupA st p).getD emptyBucket) (rowFmt r)
          + parsePts r.lbody + parsePts r.rbody) ∧
      (lookupA (rowStep teamMap selTeams st r) p).map (fun b => bucketCnt b (rowFmt r)) =
        some (bucketCnt ((lookupA st p).getD emptyBucket) (rowFmt r) + 2) ∧
      (lookupA (rowStep teamMap selTeams st r) p).map Bucket.team = some tp := by
  have hcred : creditsOf p r = 2 := by simp [creditsOf, hk, hl, hr]
  have hmain : lookupA (rowStep teamMap selTeams st r) p =
      some (rowBump tp p r ((lookupA st p).getD emptyBucket)) := by
    rw [lookupA_rowStep_pass teamMap selTeams p tp htm hpass st r]
    cases h : lookupA st p with
    | some b => simp
    | none => simp [hcred]
  rw [hmain]
  have hks : rowFmt r = "Foursome" ∨ rowFmt r = "Fourball" ∨ rowFmt r = "Single" := by
    simpa [FMT_KEYS] using hk
  rcases hks with hf | hf | hf <;>
    (refine ⟨?_, ?_, ?_⟩ <;>
      simp [rowBump, bucketPts, bucketCnt, contribP, contribC, hf, hk, hl, hr, add_assoc,
        FMT_KEYS])

/-- C10 witness: in the spec's Foursome row, Boris Varga occupies L2 and R2;
processing that row from the empty state credits him with both sides' halves
and two matches. -/
theorem claim_C10_witness :
    lookupA (build_player_team_map scenarioMatches) "Boris Varga" = some "Righties" ∧
      lCnt (mkMatch 2024 ("Foursome") (some ("Adam Nowak")) (some ("Boris Varga"))
        (some ("Cyril Horak")) (some ("Boris Varga")) (mkRat 1 2) (mkRat 1 2)) "Boris Varga" = 1 ∧
      rCnt (mkMatch 2024 ("Foursome") (some ("Adam Nowak")) (some ("Boris Varga"))
        (some ("Cyril Horak")) (some ("Boris Varga")) (mkRat 1 2) (mkRat 1 2)) "Boris Varga" = 1 ∧
      (lookupA (rowStep (build_player_team_map scenarioMatches) []
          [] (mkMatch 2024 ("Foursome") (some ("Adam Nowak")) (some ("Boris Varga"))
            (some ("Cyril Horak")) (some ("Boris Varga")) (mkRat 1 2) (mkRat 1 2)))
          "Boris Varga").map
        (fun b => bucketCnt b (rowFmt (mkMatch 2024 ("Foursome") (some ("Adam Nowak"))
          (some ("Boris Varga")) (some ("Cyril Horak")) (some ("Boris Varga"))
          (mkRat 1 2) (mkRat 1 2)))) =
        some (bucketCnt ((lookupA ([] : List (String × Bucket)) "Boris Varga").getD emptyBucket)
          (rowFmt (mkMatch 2024 ("Foursome") (some ("Adam Nowak")) (some ("Boris Varga"))
            (some ("Cyril Horak")) (some ("Boris Varga")) (mkRat 1 2) (mkRat 1 2))) + 2) :=
  ⟨by with_unfolding_all decide, by with_unfolding_all decide, by with_unfolding_all decide,
    (claim_C10 (build_player_team_map scenarioMatches) [] []
      (mkMatch 2024 ("Foursome") (some ("Adam Nowak")) (some ("Boris Varga"))
        (some ("Cyril Horak")) (some ("Boris Varga")) (mkRat 1 2) (mkRat 1 2))
      ("Boris Varga") ("Righties")
      (by with_unfolding_all decide) (Or.inl rfl)
      (by with_unfolding_all decide) (by with_unfolding_all decide)
      (by with_unfolding_all decide)).2.1⟩

/-! ## Helper lemma for the short-name claim -/

theorem pyStrip_eq_self_of_ends (s : String) (c d : Char)
    (hh : s.data.head? = some c) (hl : s.data.getLast? = some d)
    (hc : c.isWhitespace = false) (hd : d.isWhitespace = false) :
    pyStrip s = s := by
  obtain ⟨l⟩ := s
  exact pyStrip_eq_self c d l hh hl hc hd

/-- C9 (corrected), counterexample: the single-token name "Adam" is not
returned as-is by short_name_msurname; the first and last token coincide, so
the function produces "A. Adam". -/
theorem claim_C9_counterexample :
    short_name_msurname "Adam" = "A. Adam" ∧ short_name_msurname "Adam" ≠ "Adam" := by
  with_unfolding_all decide

/-- C9 (corrected), amended: for every display name with at least one
whitespace token, short_name_msurname returns the first character of the
first token, then ". ", then the last token — including single-token names,
which therefore come back abbreviated ("Adam" becomes "A. Adam") rather than
as-is. -/
theorem claim_C9_amended (name f : String) (rest : List String)
    (h : pySplit name = f :: rest) :
    (short_name_msurname name).data =
      f.data.take 1 ++ '.' :: ' ' :: ((f :: rest).getLastD f).data := by
  have hfprops := pySplit_tokens name f (h ▸ List.mem_cons_self f rest)
  have hlastmem : (f :: rest).getLastD f ∈ pySplit name := by
    rw [h, List.getLastD_eq_getLast?,
      List.getLast?_eq_getLast_of_ne_nil (List.cons_ne_nil f rest)]
    exact List.getLast_mem _
  have hlprops := pySplit_tokens name ((f :: rest).getLastD f) hlastmem
  have hfne : f ≠ "" := by
    intro hfe
    apply hfprops.1
    rw [hfe]
  obtain ⟨c, t, hft⟩ : ∃ c t, f.data = c :: t := by
    cases hfd : f.data with
    | nil => exact absurd hfd hfprops.1
    | cons c t => exact ⟨c, t, rfl⟩
  have hlne : ((f :: rest).getLastD f).data ≠ [] := hlprops.1
  obtain ⟨d0, hd0⟩ : ∃ d0, ((f :: rest).getLastD f).data.getLast? = some d0 :=
    ⟨_, List.getLast?_eq_getLast_of_ne_nil hlne⟩
  have hd0mem : d0 ∈ ((f :: rest).getLastD f).data := by
    rcases List.mem_getLast?_eq_getLast (l := ((f :: rest).getLastD f).data) (x := d0)
      (by rw [hd0]; rfl) with ⟨hne, heq⟩
    rw [heq]
    exact List.getLast_mem hne
  have hsnm : short_name_msurname name =
      pyStrip ((if f = "" then "" else (⟨f.data.take 1⟩ : String) ++ ".") ++ " " ++
        ((f :: rest).getLastD f)) := by
    unfold short_name_msurname
    rw [h]
  rw [hsnm, if_neg hfne]
  have hdata : ((⟨f.data.take 1⟩ : String) ++ "." ++ " " ++ ((f :: rest).getLastD f)).data =
      f.data.take 1 ++ '.' :: ' ' :: ((f :: rest).getLastD f).data := by
    rw [String.data_append, String.data_append, String.data_append]
    simp
  have hhead : ((⟨f.data.take 1⟩ : String) ++ "." ++ " " ++
      ((f :: rest).getLastD f)).data.head? = some c := by
    rw [hdata, hft]
    rfl
  have hlast : ((⟨f.data.take 1⟩ : String) ++ "." ++ " " ++
      ((f :: rest).getLastD f)).data.getLast? = some d0 := by
    rw [hdata]
    have hsplit : f.data.take 1 ++ '.' :: ' ' :: ((f :: rest).getLastD f).data =
        (f.data.take 1 ++ ['.', ' ']) ++ ((f :: rest).getLastD f).data := by
      simp
    rw [hsplit, List.getLast?_append_of_ne_nil _ hlne]
    exact hd0
  rw [pyStrip_eq_self_of_ends _ c d0 hhead hlast
    (hfprops.2 c (by rw [hft]; exact List.mem_cons_self c t)) (hlprops.2 d0 hd0mem)]
  exact hdata

/-- C9 witness: the amended rule instantiated at the two-token name
"Adam Nowak", which abbreviates to "A. Nowak". -/
theorem claim_C9_amended_witness :
    pySplit "Adam Nowak" = ["Adam", "Nowak"] ∧
      (short_name_msurname "Adam Nowak").data =
        ("Adam" : String).data.take 1 ++ '.' :: ' ' ::
          ((["Adam", "Nowak"] : List String).getLastD ("Adam")).data :=
  ⟨by with_unfolding_all decide,
    claim_C9_amended ("Adam Nowak") ("Adam") ["Nowak"] (by with_unfolding_all decide)⟩
